import Mathlib

/-!
Verification of the `parallel` benchmark programs.

A shallow embedding of the host-side code of the repository:

* `task3_selection_sort.cpp` : `selectionSortSequential`, `selectionSortParallel`
* `task2_openmp.cpp`         : `findMinMaxSequential`, `findMinMaxParallel`
* `practice-6/1-task/opencl_vector_add.c`, `practice-6/2-task/matrix_multiply.c` :
  the work-partition arithmetic and the control flow of `main` as a function of
  the statuses returned by the OpenCL calls.

C `int` arrays are lists of integers; an array parameter `arr` together with its
`size` is a list and a natural number. A counted loop
`for (int j = lo; j < hi; j++) body` whose body assigns neither `j` nor `hi` is the
left fold of `body` over `List.range' lo (hi - lo)`.
-/

namespace Parallel

/-! ## Arrays -/

/-- Array read `arr[i]`. -/
def rd (arr : List Int) (i : Nat) : Int := arr.getD i 0

/-! ## task3_selection_sort.cpp -/

/-- The tail of an outer iteration of both sorts:
`if (minIndex != i) { temp = arr[i]; arr[i] = arr[minIndex]; arr[minIndex] = temp; }`. -/
def swapIfNeeded (arr : List Int) (i minIndex : Nat) : List Int :=
  if minIndex ≠ i then
    let temp := rd arr i
    let arr1 := arr.set i (rd arr minIndex)
    arr1.set minIndex temp
  else arr

/-- Body of the inner loop of `selectionSortSequential`:
`if (arr[j] < arr[minIndex]) minIndex = j;`. -/
def seqInnerBody (arr : List Int) (minIndex j : Nat) : Nat :=
  if rd arr j < rd arr minIndex then j else minIndex

/-- Inner loop of `selectionSortSequential`: `minIndex = i; for (j = i+1; j < size; j++) ...`. -/
def seqMinIndex (arr : List Int) (size i : Nat) : Nat :=
  (List.range' (i + 1) (size - (i + 1))).foldl (seqInnerBody arr) i

/-- One outer iteration of `selectionSortSequential`. -/
def seqOuterBody (size : Nat) (arr : List Int) (i : Nat) : List Int :=
  swapIfNeeded arr i (seqMinIndex arr size i)

/-- The function `selectionSortSequential(arr, size)`: `for (i = 0; i < size - 1; i++) ...`.
For `size = 0` the bound `size - 1` is `-1` and the loop body never runs, as with
the truncated subtraction here. -/
def selectionSortSequential (arr : List Int) (size : Nat) : List Int :=
  (List.range (size - 1)).foldl (seqOuterBody size) arr

/-- Thread-local search of `selectionSortParallel`: starting from
`localMinIndex = i`, `localMinValue = arr[i]`, the thread runs the inner-loop body
`if (arr[j] < localMinValue) { localMinValue = arr[j]; localMinIndex = j; }`
on the iterations `js` that the work-sharing loop gave it, in the order it runs them. -/
def threadSearch (arr : List Int) (i : Nat) (js : List Nat) : Int × Nat :=
  js.foldl (fun l j => if rd arr j < l.1 then (rd arr j, j) else l) (rd arr i, i)

/-- The critical section: `if (localMinValue < minValue) { minValue = ...; minIndex = ...; }`
on the shared pair `(minValue, minIndex)`. -/
def criticalUpdate (g l : Int × Nat) : Int × Nat :=
  if l.1 < g.1 then l else g

/-- The parallel region of one outer iteration. `threads` lists the threads of the
team in the order in which they enter the critical section; each thread is the list
of inner iterations it executes. Returns the shared `minIndex` after the region. -/
def parMinIndex (arr : List Int) (i : Nat) (threads : List (List Nat)) : Nat :=
  ((threads.map (threadSearch arr i)).foldl criticalUpdate (rd arr i, i)).2

/-- One outer iteration of `selectionSortParallel` under the schedule `sched`. -/
def parOuterBody (sched : Nat → List (List Nat)) (arr : List Int) (i : Nat) : List Int :=
  swapIfNeeded arr i (parMinIndex arr i (sched i))

/-- The function `selectionSortParallel(arr, size)`; `sched i` is the split of the inner
iterations among the threads and the critical-section order in outer iteration `i`. -/
def selectionSortParallel (sched : Nat → List (List Nat)) (arr : List Int) (size : Nat) :
    List Int :=
  (List.range (size - 1)).foldl (parOuterBody sched) arr

/-- A schedule is a split of the inner loop of outer iteration `i`: every index
`i+1 .. size-1` is executed exactly once, by one thread. -/
def ValidSplit (size i : Nat) (threads : List (List Nat)) : Prop :=
  List.Perm threads.flatten (List.range' (i + 1) (size - (i + 1)))

/-! ## task2_openmp.cpp -/

/-- Largest value of a C `int` (32 bits). -/
def INT_MAX : Int := 2147483647

/-- Smallest value of a C `int` (32 bits). -/
def INT_MIN : Int := -2147483648

/-- Every element of the array is a value of type `int`. -/
def IsIntArray (arr : List Int) : Prop := ∀ x ∈ arr, INT_MIN ≤ x ∧ x ≤ INT_MAX

/-- The loop body shared by `findMinMaxSequential` and `findMinMaxParallel`:
`if (arr[i] < minVal) minVal = arr[i]; if (arr[i] > maxVal) maxVal = arr[i];`
on the pair `(minVal, maxVal)`. -/
def minMaxBody (arr : List Int) (acc : Int × Int) (i : Nat) : Int × Int :=
  let minVal := if rd arr i < acc.1 then rd arr i else acc.1
  let maxVal := if rd arr i > acc.2 then rd arr i else acc.2
  (minVal, maxVal)

/-- The function `findMinMaxSequential(arr, size, minVal, maxVal)`; returns
`(minVal, maxVal)`: both start at `arr[0]`, then `for (i = 1; i < size; i++) ...`. -/
def findMinMaxSequential (arr : List Int) (size : Nat) : Int × Int :=
  (List.range' 1 (size - 1)).foldl (minMaxBody arr) (rd arr 0, rd arr 0)

/-- What one thread of `findMinMaxParallel` computes: its private copies of the
reduction variables start at the identities of the `min` and `max` reductions
(`INT_MAX`, `INT_MIN`), and the thread runs the loop body on its iterations `js`. -/
def threadReduce (arr : List Int) (js : List Nat) : Int × Int :=
  js.foldl (minMaxBody arr) (INT_MAX, INT_MIN)

/-- The combiners of `reduction(min:minVal)` and `reduction(max:maxVal)`: the
shared pair `out` is updated with a private pair `priv`. -/
def combine (out priv : Int × Int) : Int × Int :=
  (if priv.1 < out.1 then priv.1 else out.1, if priv.2 > out.2 then priv.2 else out.2)

/-- The function `findMinMaxParallel(arr, size, minVal, maxVal)`; returns
`(minVal, maxVal)`. The original variables hold `arr[0]`; `threads` lists the threads
in the order in which their partial results are merged into the original variables,
each thread being the list of loop iterations it executes. -/
def findMinMaxParallel (threads : List (List Nat)) (arr : List Int) (_size : Nat) : Int × Int :=
  (threads.map (threadReduce arr)).foldl combine (rd arr 0, rd arr 0)

/-- A split of the loop `for (i = 1; i < size; i++)` among threads: every index
`1 .. size-1` is executed exactly once. -/
def ValidReductionSplit (size : Nat) (threads : List (List Nat)) : Prop :=
  List.Perm threads.flatten (List.range' 1 (size - 1))

/-- Invariant of the shared pair `(minVal, maxVal)` after the iterations `seen`. -/
def SharedInv (arr : List Int) (seen : List Nat) (p : Int × Int) : Prop :=
  (p.1 = rd arr 0 ∨ ∃ j ∈ seen, p.1 = rd arr j) ∧ p.1 ≤ rd arr 0 ∧
    (∀ j ∈ seen, p.1 ≤ rd arr j) ∧
  (p.2 = rd arr 0 ∨ ∃ j ∈ seen, p.2 = rd arr j) ∧ rd arr 0 ≤ p.2 ∧
    (∀ j ∈ seen, rd arr j ≤ p.2)

/-- Invariant of a private pair after the iterations `seen` of its thread. -/
def ThreadInv (arr : List Int) (seen : List Nat) (p : Int × Int) : Prop :=
  (p.1 = INT_MAX ∨ ∃ j ∈ seen, p.1 = rd arr j) ∧ (∀ j ∈ seen, p.1 ≤ rd arr j) ∧
  (p.2 = INT_MIN ∨ ∃ j ∈ seen, p.2 = rd arr j) ∧ (∀ j ∈ seen, rd arr j ≤ p.2)

/-- The pair `p` is (minimum, maximum) of `arr[0 .. size-1]`. -/
def IsMinMax (arr : List Int) (size : Nat) (p : Int × Int) : Prop :=
  (∃ i, i < size ∧ p.1 = rd arr i) ∧ (∃ i, i < size ∧ p.2 = rd arr i) ∧
    ∀ i, i < size → p.1 ≤ rd arr i ∧ rd arr i ≤ p.2

/-! ## practice-6: OpenCL host programs -/

/-- Modulus of `size_t` arithmetic (64-bit `size_t`). -/
def SIZE_MOD : Nat := 2 ^ 64

/-- Sum of two `size_t` values. -/
def sizeAdd (a b : Nat) : Nat := (a + b) % SIZE_MOD

/-- Difference of two `size_t` values (wraps around below zero). -/
def sizeSub (a b : Nat) : Nat := (a + SIZE_MOD - b % SIZE_MOD) % SIZE_MOD

/-- Product of two `size_t` values. -/
def sizeMul (a b : Nat) : Nat := (a * b) % SIZE_MOD

/-- The rounding of `matrix_multiply.c`, lines 270-271:
`((n + local - 1) / local) * local` on `size_t` operands. -/
def roundUpGlobal (n loc : Nat) : Nat :=
  sizeMul (sizeSub (sizeAdd n loc) 1 / loc) loc

/-- The constant `ARRAY_SIZE` of `opencl_vector_add.c`. -/
def ARRAY_SIZE : Nat := 16777216

/-- The constant `N` of `matrix_multiply.c`. -/
def N : Nat := 512

/-- The constant `K` of `matrix_multiply.c`. -/
def K : Nat := 512

/-- The size `sizeof(float)` in bytes. -/
def SIZEOF_FLOAT : Nat := 4

/-- Number of `float` elements of the host output buffer `C` of the vector addition:
`malloc(ARRAY_SIZE * sizeof(float))`. -/
def vectorAddOutputCount : Nat := sizeMul ARRAY_SIZE SIZEOF_FLOAT / SIZEOF_FLOAT

/-- The global extent of the vector addition: `size_t global_size = ARRAY_SIZE;`. -/
def vectorAddGlobalSize : Nat := ARRAY_SIZE

/-- Number of `float` elements of the host output buffer `C_gpu` of the matrix
multiplication: `size_C = N * K * sizeof(float)`, `malloc(size_C)`. -/
def matrixOutputCount (n k : Nat) : Nat := sizeMul (n * k) SIZEOF_FLOAT / SIZEOF_FLOAT

/-- The local extent of the matrix multiplication: `size_t local_size[2] = {16, 16};`. -/
def matrixLocalSize : Nat × Nat := (16, 16)

/-- The global extent of the matrix multiplication after the rounding. -/
def matrixGlobalSize (n k : Nat) : Nat × Nat :=
  (roundUpGlobal n matrixLocalSize.1, roundUpGlobal k matrixLocalSize.2)

/-- The status `CL_SUCCESS`. -/
def CL_SUCCESS : Int := 0

/-- The device-side handles of a benchmark, in the order of their acquisition. -/
inductive Handle
  | context | queue | program | kernel | bufferA | bufferB | bufferC
  deriving DecidableEq, Repr

/-- The device class of a `clGetDeviceIDs` query. -/
inductive DeviceType
  | gpu | cpu
  deriving DecidableEq, Repr

/-- The OpenCL calls of `main`. `create h` is the call that creates the handle `h`
(`clCreateContext`, `clCreateCommandQueue`, `clCreateProgramWithSource`,
`clCreateKernel`, `clCreateBuffer`), `release h` the matching `clRelease...`. -/
inductive Call
  | getPlatformIDs
  | getPlatformInfo
  | getDeviceIDs (t : DeviceType)
  | getDeviceInfo
  | create (h : Handle)
  | buildProgram
  | getProgramBuildInfo
  | setKernelArg (i : Nat)
  | enqueueNDRangeKernel
  | finish
  | enqueueReadBuffer
  | release (h : Handle)
  deriving DecidableEq, Repr

/-- What the environment answers to `main`: whether the four host `malloc`s succeed,
whether `read_kernel_file` returns the source, and the status of every OpenCL call
whose status `main` looks at. A create call returns a null handle exactly when its
status is not `CL_SUCCESS`. -/
structure ApiStatus where
  hostAlloc : Bool
  readKernelFile : Bool
  getPlatformIDs : Int
  getDeviceIDsGpu : Int
  getDeviceIDsCpu : Int
  createContext : Int
  createCommandQueue : Int
  createProgramWithSource : Int
  buildProgram : Int
  createKernel : Int
  createBufferA : Int
  createBufferB : Int
  createBufferC : Int
  enqueueNDRangeKernel : Int
  enqueueReadBuffer : Int
  deriving DecidableEq, Repr

/-- What a run of `main` leaves: the exit code, the OpenCL calls made, in order, and
the verdict printed by the verification (`some true` for PASSED), if it was reached. -/
structure Outcome where
  exitCode : Int
  calls : List Call
  passed : Option Bool
  deriving DecidableEq, Repr

/-- The status of the call that creates a handle. -/
def ApiStatus.createStatus (st : ApiStatus) : Handle → Int
  | .context => st.createContext
  | .queue => st.createCommandQueue
  | .program => st.createProgramWithSource
  | .kernel => st.createKernel
  | .bufferA => st.createBufferA
  | .bufferB => st.createBufferB
  | .bufferC => st.createBufferC

/-- The handle `h` was successfully acquired in a run with the calls `calls`. -/
def acquired (st : ApiStatus) (calls : List Call) (h : Handle) : Prop :=
  Call.create h ∈ calls ∧ st.createStatus h = CL_SUCCESS

instance (st : ApiStatus) (calls : List Call) (h : Handle) : Decidable (acquired st calls h) := by
  unfold acquired
  exact inferInstance

/-- Number of times the handle `h` was released. -/
def releaseCount (calls : List Call) (h : Handle) : Nat :=
  calls.count (Call.release h)

/-- The environment in which everything succeeds. -/
def okStatus : ApiStatus :=
  { hostAlloc := true, readKernelFile := true, getPlatformIDs := 0, getDeviceIDsGpu := 0,
    getDeviceIDsCpu := 0, createContext := 0, createCommandQueue := 0,
    createProgramWithSource := 0, buildProgram := 0, createKernel := 0, createBufferA := 0,
    createBufferB := 0, createBufferC := 0, enqueueNDRangeKernel := 0,
    enqueueReadBuffer := 0 }

/-- The teardown at the end of both programs and on a dispatch failure:
`clReleaseMemObject` of the three buffers, then kernel, program, queue, context. -/
def releaseAll : List Call :=
  [.release .bufferA, .release .bufferB, .release .bufferC, .release .kernel,
   .release .program, .release .queue, .release .context]

namespace VectorAdd

/-- The part of `main` of `opencl_vector_add.c` after the device discovery (from
`clGetDeviceInfo`, line 126, to the end); `log` holds the calls made so far and
`errors` is the count found by the verification loop. -/
def mainFromDevice (st : ApiStatus) (errors : Nat) (log : List Call) : Outcome :=
  let log := log ++ [.getDeviceInfo, .create .context]
  if st.createContext ≠ CL_SUCCESS then ⟨1, log, none⟩ else
  let log := log ++ [.create .queue]
  if st.createCommandQueue ≠ CL_SUCCESS then
    ⟨1, log ++ [.release .context], none⟩ else
  if st.readKernelFile = false then
    ⟨1, log ++ [.release .queue, .release .context], none⟩ else
  let log := log ++ [.create .program]
  if st.createProgramWithSource ≠ CL_SUCCESS then
    ⟨1, log ++ [.release .queue, .release .context], none⟩ else
  let log := log ++ [.buildProgram]
  if st.buildProgram ≠ CL_SUCCESS then
    ⟨1, log ++ [.getProgramBuildInfo, .getProgramBuildInfo,
      .release .program, .release .queue, .release .context], none⟩ else
  let log := log ++ [.create .kernel]
  if st.createKernel ≠ CL_SUCCESS then
    ⟨1, log ++ [.release .program, .release .queue, .release .context], none⟩ else
  let log := log ++ [.create .bufferA, .create .bufferB, .create .bufferC]
  -- `if (!bufferA || !bufferB || !bufferC)`: a handle is null iff its creation failed
  if st.createBufferA ≠ CL_SUCCESS ∨ st.createBufferB ≠ CL_SUCCESS ∨
      st.createBufferC ≠ CL_SUCCESS then
    ⟨1, log ++ [.release .kernel, .release .program, .release .queue, .release .context],
      none⟩ else
  let log := log ++ [.setKernelArg 0, .setKernelArg 1, .setKernelArg 2, .enqueueNDRangeKernel]
  if st.enqueueNDRangeKernel ≠ CL_SUCCESS then ⟨1, log ++ releaseAll, none⟩ else
  let log := log ++ [.finish, .enqueueReadBuffer]
  -- `if (err != CL_SUCCESS) fprintf(...)`: a failed readback is reported and the run goes on
  ⟨0, log ++ releaseAll, some (errors == 0)⟩

/-- The function `main` of `opencl_vector_add.c`. -/
def main (st : ApiStatus) (errors : Nat) : Outcome :=
  if st.hostAlloc = false then ⟨1, [], none⟩ else
  if st.getPlatformIDs ≠ CL_SUCCESS then ⟨1, [.getPlatformIDs], none⟩ else
  let log := [.getPlatformIDs, .getPlatformInfo, .getDeviceIDs .gpu]
  if st.getDeviceIDsGpu ≠ CL_SUCCESS then
    if st.getDeviceIDsCpu ≠ CL_SUCCESS then ⟨1, log ++ [.getDeviceIDs .cpu], none⟩
    else mainFromDevice st errors (log ++ [.getDeviceIDs .cpu])
  else mainFromDevice st errors log

end VectorAdd

namespace MatrixMultiply

/-- The part of `main` of `matrix_multiply.c` after the device discovery (from
`clGetDeviceInfo`, line 161, to the end); `log` holds the calls made so far and
`errors` is the value returned by `verify_results`. -/
def mainFromDevice (st : ApiStatus) (errors : Nat) (log : List Call) : Outcome :=
  let log := log ++ [.getDeviceInfo, .create .context]
  if st.createContext ≠ CL_SUCCESS then ⟨1, log, none⟩ else
  let log := log ++ [.create .queue]
  if st.createCommandQueue ≠ CL_SUCCESS then
    ⟨1, log ++ [.release .context], none⟩ else
  if st.readKernelFile = false then
    ⟨1, log ++ [.release .queue, .release .context], none⟩ else
  let log := log ++ [.create .program]
  if st.createProgramWithSource ≠ CL_SUCCESS then
    ⟨1, log ++ [.release .queue, .release .context], none⟩ else
  let log := log ++ [.buildProgram]
  if st.buildProgram ≠ CL_SUCCESS then
    ⟨1, log ++ [.getProgramBuildInfo, .getProgramBuildInfo,
      .release .program, .release .queue, .release .context], none⟩ else
  let log := log ++ [.create .kernel]
  if st.createKernel ≠ CL_SUCCESS then
    ⟨1, log ++ [.release .program, .release .queue, .release .context], none⟩ else
  let log := log ++ [.create .bufferA, .create .bufferB, .create .bufferC]
  -- `if (!bufferA || !bufferB || !bufferC)`: a handle is null iff its creation failed
  if st.createBufferA ≠ CL_SUCCESS ∨ st.createBufferB ≠ CL_SUCCESS ∨
      st.createBufferC ≠ CL_SUCCESS then
    ⟨1, log ++ [.release .kernel, .release .program, .release .queue, .release .context],
      none⟩ else
  let log := log ++ [.setKernelArg 0, .setKernelArg 1, .setKernelArg 2, .setKernelArg 3,
    .setKernelArg 4, .setKernelArg 5, .enqueueNDRangeKernel]
  if st.enqueueNDRangeKernel ≠ CL_SUCCESS then ⟨1, log ++ releaseAll, none⟩ else
  let log := log ++ [.finish, .enqueueReadBuffer]
  -- `if (err != CL_SUCCESS) fprintf(...)`: a failed readback is reported and the run goes on
  ⟨0, log ++ releaseAll, some (errors == 0)⟩

/-- The function `main` of `matrix_multiply.c`. -/
def main (st : ApiStatus) (errors : Nat) : Outcome :=
  if st.hostAlloc = false then ⟨1, [], none⟩ else
  if st.getPlatformIDs ≠ CL_SUCCESS then ⟨1, [.getPlatformIDs], none⟩ else
  let log := [.getPlatformIDs, .getPlatformInfo, .getDeviceIDs .gpu]
  if st.getDeviceIDsGpu ≠ CL_SUCCESS then
    if st.getDeviceIDsCpu ≠ CL_SUCCESS then ⟨1, log ++ [.getDeviceIDs .cpu], none⟩
    else mainFromDevice st errors (log ++ [.getDeviceIDs .cpu])
  else mainFromDevice st errors log

end MatrixMultiply

/-- Some call that the programs treat as fatal fails: the platform query, both device
queries, the creation of the context, queue, program, kernel or of one of the three
buffers, the build, or the dispatch. -/
def FatalFailure (st : ApiStatus) : Prop :=
  st.getPlatformIDs ≠ CL_SUCCESS ∨
  (st.getDeviceIDsGpu ≠ CL_SUCCESS ∧ st.getDeviceIDsCpu ≠ CL_SUCCESS) ∨
  st.createContext ≠ CL_SUCCESS ∨ st.createCommandQueue ≠ CL_SUCCESS ∨
  st.createProgramWithSource ≠ CL_SUCCESS ∨ st.buildProgram ≠ CL_SUCCESS ∨
  st.createKernel ≠ CL_SUCCESS ∨ st.createBufferA ≠ CL_SUCCESS ∨
  st.createBufferB ≠ CL_SUCCESS ∨ st.createBufferC ≠ CL_SUCCESS ∨
  st.enqueueNDRangeKernel ≠ CL_SUCCESS

/-- Host allocation succeeds and every OpenCL call that is made returns `CL_SUCCESS`
(the GPU query succeeds, so no CPU query is made). -/
def AllCallsSucceed (st : ApiStatus) : Prop :=
  st.hostAlloc = true ∧ st.getPlatformIDs = CL_SUCCESS ∧ st.getDeviceIDsGpu = CL_SUCCESS ∧
  st.createContext = CL_SUCCESS ∧ st.createCommandQueue = CL_SUCCESS ∧
  st.createProgramWithSource = CL_SUCCESS ∧ st.buildProgram = CL_SUCCESS ∧
  st.createKernel = CL_SUCCESS ∧ st.createBufferA = CL_SUCCESS ∧
  st.createBufferB = CL_SUCCESS ∧ st.createBufferC = CL_SUCCESS ∧
  st.enqueueNDRangeKernel = CL_SUCCESS ∧ st.enqueueReadBuffer = CL_SUCCESS

/-- Index `m` holds a minimum of `arr[i .. size-1]`. -/
def IsMinAt (arr : List Int) (size i m : Nat) : Prop :=
  i ≤ m ∧ m < size ∧ ∀ j, i ≤ j → j < size → rd arr m ≤ rd arr j

/-- Loop invariant of the outer loop after `n` iterations, relative to the input `arr0`. -/
def SortInv (arr0 : List Int) (size n : Nat) (arr : List Int) : Prop :=
  arr.length = size ∧ List.Perm arr arr0 ∧
    ∀ a b, a < n → a ≤ b → b < size → rd arr a ≤ rd arr b

/-- What a pair `(value, index)` of the parallel search knows after the inner
iterations `seen`: the value is the one stored at the index, the index is `i` or one
of `seen`, and the value is below `arr[i]` and below every cell of `seen`. -/
def GoodPair (arr : List Int) (i : Nat) (seen : List Nat) (p : Int × Nat) : Prop :=
  p.1 = rd arr p.2 ∧ (p.2 = i ∨ p.2 ∈ seen) ∧ p.1 ≤ rd arr i ∧ ∀ j ∈ seen, p.1 ≤ rd arr j

/-- The static split of the inner iterations of outer iteration `i` between two
threads (first half, second half), the second thread entering the critical section
first. -/
def twoThreadSched (size : Nat) (i : Nat) : List (List Nat) :=
  [List.range' (i + 1 + (size - (i + 1)) / 2) (size - (i + 1) - (size - (i + 1)) / 2),
   List.range' (i + 1) ((size - (i + 1)) / 2)]

/-- The split of the loop `i = 1 .. size-1` between two threads (first half, second
half), the partial result of the second thread being merged first. -/
def twoThreadReduction (size : Nat) : List (List Nat) :=
  [List.range' (1 + (size - 1) / 2) (size - 1 - (size - 1) / 2),
   List.range' 1 ((size - 1) / 2)]

/-- Every step from the context creation to the dispatch succeeds. -/
def DeviceStepsSucceed (st : ApiStatus) : Prop :=
  st.createContext = CL_SUCCESS ∧ st.createCommandQueue = CL_SUCCESS ∧
  st.readKernelFile = true ∧ st.createProgramWithSource = CL_SUCCESS ∧
  st.buildProgram = CL_SUCCESS ∧ st.createKernel = CL_SUCCESS ∧
  st.createBufferA = CL_SUCCESS ∧ st.createBufferB = CL_SUCCESS ∧
  st.createBufferC = CL_SUCCESS ∧ st.enqueueNDRangeKernel = CL_SUCCESS

instance (st : ApiStatus) : Decidable (DeviceStepsSucceed st) := by
  unfold DeviceStepsSucceed
  exact inferInstance

/-! ## Order of the teardown -/

/-- The handles released by a run, in the order of their release. -/
def releases (calls : List Call) : List Handle :=
  calls.filterMap (fun c => match c with
    | .release h => some h
    | _ => none)

/-- Position of a handle in the acquisition order: context, queue, program, kernel,
bufferA, bufferB, bufferC. -/
def acqRank : Handle → Nat
  | .context => 0
  | .queue => 1
  | .program => 2
  | .kernel => 3
  | .bufferA => 4
  | .bufferB => 5
  | .bufferC => 6

/-- The acquisition rank in which the three buffers count as one group. -/
def groupRank : Handle → Nat
  | .context => 0
  | .queue => 1
  | .program => 2
  | .kernel => 3
  | .bufferA => 4
  | .bufferB => 4
  | .bufferC => 4

/-- Walks through the calls of a run with the list `held` of the handles that are
acquired and not yet released; at every release of a handle `h` no held handle may
have a larger `rank` than `h`, that is, may have been acquired after `h`. -/
def releaseOrderFrom (rank : Handle → Nat) (st : ApiStatus) :
    List Call → List Handle → Bool
  | [], _ => true
  | .create h :: cs, held =>
    releaseOrderFrom rank st cs (if st.createStatus h = CL_SUCCESS then h :: held else held)
  | .release h :: cs, held =>
    held.all (fun h' => decide (rank h' ≤ rank h)) && releaseOrderFrom rank st cs (held.erase h)
  | _ :: cs, held => releaseOrderFrom rank st cs held

/-- No handle is released while a handle acquired after it is still unreleased. -/
def strictReverse (st : ApiStatus) (calls : List Call) : Bool :=
  releaseOrderFrom acqRank st calls []

/-- No handle is released while a handle of a later acquisition group is still
unreleased, the three buffers forming one group. -/
def groupReverse (st : ApiStatus) (calls : List Call) : Bool :=
  releaseOrderFrom groupRank st calls []

/-- The order of the teardown written in the programs. -/
def teardownOrder : List Handle :=
  [.bufferA, .bufferB, .bufferC, .kernel, .program, .queue, .context]

/-- Some of the three buffers are created and some are not. -/
def PartialBuffers (st : ApiStatus) : Prop :=
  (st.createBufferA = CL_SUCCESS ∨ st.createBufferB = CL_SUCCESS ∨
      st.createBufferC = CL_SUCCESS) ∧
    (st.createBufferA ≠ CL_SUCCESS ∨ st.createBufferB ≠ CL_SUCCESS ∨
      st.createBufferC ≠ CL_SUCCESS)

/-! ## Device discovery -/

/-- What the device discovery of `main` does in a run with outcome `o`, in terms of
the statuses of the GPU query and of the CPU query: the GPU query comes first, right
after the platform calls; the CPU query is made once if the GPU query failed and not
at all otherwise; the run goes on to `clGetDeviceInfo` iff one of the two queries
succeeded; the run ends right after the CPU query with exit code `1` iff both failed;
and when every later step succeeds, the exit code is `1` iff both failed. -/
def DiscoveryOutcome (st : ApiStatus) (o : Outcome) : Prop :=
  o.calls.take 3 = [.getPlatformIDs, .getPlatformInfo, .getDeviceIDs .gpu] ∧
  o.calls.count (.getDeviceIDs .gpu) = 1 ∧
  o.calls.count (.getDeviceIDs .cpu) = (if st.getDeviceIDsGpu ≠ CL_SUCCESS then 1 else 0) ∧
  (Call.getDeviceInfo ∈ o.calls ↔
    (st.getDeviceIDsGpu = CL_SUCCESS ∨ st.getDeviceIDsCpu = CL_SUCCESS)) ∧
  (o = ⟨1, [.getPlatformIDs, .getPlatformInfo, .getDeviceIDs .gpu, .getDeviceIDs .cpu], none⟩ ↔
    (st.getDeviceIDsGpu ≠ CL_SUCCESS ∧ st.getDeviceIDsCpu ≠ CL_SUCCESS)) ∧
  (DeviceStepsSucceed st →
    (o.exitCode = 1 ↔ (st.getDeviceIDsGpu ≠ CL_SUCCESS ∧ st.getDeviceIDsCpu ≠ CL_SUCCESS)))

/-! ## Verification and host reference (practice-6) -/

/-- Index of `A[i][l]` in the row-major `n x m` matrix `A`: the expression `i * m + l`. -/
def idxA (i m l : Nat) : Nat := i * m + l

/-- Index of `B[l][j]` in the row-major `m x k` matrix `B`: the expression `l * k + j`. -/
def idxB (l k j : Nat) : Nat := l * k + j

/-- Index of `C[i][j]` in the row-major `n x k` matrix `C`: the expression `i * k + j`. -/
def idxC (i k j : Nat) : Nat := i * k + j

/-- The value of a non-negative expression of type `int`: defined when it does not
exceed `INT_MAX`; beyond that the C expression overflows and the behaviour of the
program is undefined. -/
def intExpr (x : Nat) : Option Nat :=
  if (x : Int) ≤ INT_MAX then some x else none

/-- The `int` expression `i * m + l` of line 65: the product, then the sum. -/
def idxAInt (i m l : Nat) : Option Nat :=
  (intExpr (i * m)).bind (fun p => intExpr (p + l))

/-- The `int` expression `l * k + j` of line 65: the product, then the sum. -/
def idxBInt (l k j : Nat) : Option Nat :=
  (intExpr (l * k)).bind (fun p => intExpr (p + j))

/-- The `int` expression `i * k + j` of line 67: the product, then the sum. -/
def idxCInt (i k j : Nat) : Option Nat :=
  (intExpr (i * k)).bind (fun p => intExpr (p + j))

/-- The innermost loop of `matrix_multiply_cpu`:
`sum = 0; for (l = 0; l < m; l++) sum += A[i * m + l] * B[l * k + j];`.
The element type `R` with its `0`, `+` and `*` stands for `float`; the result is
`none` when an index expression overflows `int`. -/
def dotRow {R : Type} [Zero R] [Add R] [Mul R] (A B : List R) (m k i j : Nat) : Option R :=
  (List.range m).foldlM (fun sum l =>
    (idxAInt i m l).bind (fun a =>
      (idxBInt l k j).bind (fun b => some (sum + A.getD a 0 * B.getD b 0)))) 0

/-- The loop over `j` of `matrix_multiply_cpu` for the row `i`:
`for (j = 0; j < k; j++) { ...; C[i * k + j] = sum; }`. -/
def multiplyRow {R : Type} [Zero R] [Add R] [Mul R] (A B : List R) (m k : Nat)
    (C : List R) (i : Nat) : Option (List R) :=
  (List.range k).foldlM (fun c j =>
    (dotRow A B m k i j).bind (fun sum =>
      (idxCInt i k j).bind (fun p => some (c.set p sum)))) C

/-- The function `matrix_multiply_cpu(A, B, C, n, m, k)` with `int` dimensions `n`, `m`,
`k`; returns the array `C`, or `none` when an index expression overflows `int`. -/
def matrix_multiply_cpu {R : Type} [Zero R] [Add R] [Mul R] (A B C : List R)
    (n m k : Nat) : Option (List R) :=
  (List.range n).foldlM (multiplyRow A B m k) C

/-- The sum that `dotRow` accumulates, left to right from `0`, when no index expression
overflows. -/
def dotSum {R : Type} [Zero R] [Add R] [Mul R] (A B : List R) (m k i j : Nat) : R :=
  (List.range m).foldl (fun sum l => sum + A.getD (idxA i m l) 0 * B.getD (idxB l k j) 0) 0

/-- The array that `multiplyRow` leaves when no index expression overflows. -/
def productRow {R : Type} [Zero R] [Add R] [Mul R] (A B : List R) (m k : Nat)
    (C : List R) (i : Nat) : List R :=
  (List.range k).foldl (fun c j => c.set (idxC i k j) (dotSum A B m k i j)) C

/-- The array that `matrix_multiply_cpu` leaves when no index expression overflows. -/
def productRows {R : Type} [Zero R] [Add R] [Mul R] (A B C : List R)
    (n m k : Nat) : List R :=
  (List.range n).foldl (productRow A B m k) C

/-- The tolerance `1e-3` of `verify_results`. -/
def TOLERANCE : ℚ := 1 / 1000

/-- Body of the loop of `verify_results` on the pair `(errors, max_diff)`:
`diff = fabs(C_gpu[i] - C_cpu[i]); if (diff > max_diff) max_diff = diff;
if (diff > 1e-3) errors++;`, the arithmetic being exact. -/
def verifyBody (C_gpu C_cpu : List ℚ) (acc : Nat × ℚ) (i : Nat) : Nat × ℚ :=
  let diff := |C_gpu.getD i 0 - C_cpu.getD i 0|
  let max_diff := if diff > acc.2 then diff else acc.2
  let errors := if diff > TOLERANCE then acc.1 + 1 else acc.1
  (errors, max_diff)

/-- The function `verify_results(C_gpu, C_cpu, n, k)`; returns `errors`. -/
def verify_results (C_gpu C_cpu : List ℚ) (n k : Nat) : Nat :=
  ((List.range (n * k)).foldl (verifyBody C_gpu C_cpu) (0, 0)).1

/-- The host reference loop of `opencl_vector_add.c`, lines 84-86:
`for (i = 0; i < n; i++) C_cpu[i] = A[i] + B[i];`. The type `F` stands for the `float`
values, `fadd` for their addition. -/
def vectorAddReference {F : Type} [Inhabited F] (fadd : F → F → F) (A B C_cpu : List F)
    (n : Nat) : List F :=
  (List.range n).foldl (fun c i => c.set i (fadd (A.getD i default) (B.getD i default))) C_cpu

/-- The verification loop of `opencl_vector_add.c`, lines 305-310:
`errors = 0; for (i = 0; i < n; i++) if (C[i] != A[i] + B[i]) errors++;`. -/
def vectorAddErrors {F : Type} [Inhabited F] [DecidableEq F] (fadd : F → F → F)
    (A B C : List F) (n : Nat) : Nat :=
  (List.range n).foldl
    (fun errors i =>
      if C.getD i default ≠ fadd (A.getD i default) (B.getD i default) then errors + 1
      else errors) 0

/-- The loop of `isSorted` over the indices `is`, the array being passed along:
`if (arr[i] > arr[i + 1]) return false;`, and `return true` after the loop. -/
def isSortedLoop (arr : List Int) : List Nat → Bool × List Int
  | [] => (true, arr)
  | i :: is => if rd arr i > rd arr (i + 1) then (false, arr) else isSortedLoop arr is

/-- The function `isSorted(arr, size)`: `for (i = 0; i < size - 1; i++) ...`; returns the
result and the array it leaves. -/
def isSorted (arr : List Int) (size : Nat) : Bool × List Int :=
  isSortedLoop arr (List.range (size - 1))

/-! ### Reading a swapped array -/

theorem rd_set (arr : List Int) (i j : Nat) (v : Int) (hi : i < arr.length) :
    rd (arr.set i v) j = if i = j then v else rd arr j := by
  unfold rd
  simp only [List.getD_eq_getElem?_getD, List.getElem?_set]
  by_cases h : i = j
  · subst h
    simp [hi]
  · simp [h]

theorem rd_swapIfNeeded (arr : List Int) (i m j : Nat) (hi : i < arr.length)
    (hm : m < arr.length) :
    rd (swapIfNeeded arr i m) j =
      if j = i then rd arr m else if j = m then rd arr i else rd arr j := by
  unfold swapIfNeeded
  by_cases h : m = i
  · subst h
    by_cases hj : j = m <;> simp [hj]
  · simp only [ne_eq, h, not_false_eq_true, if_true]
    rw [rd_set _ _ _ _ (by simpa using hm), rd_set _ _ _ _ hi]
    by_cases h1 : j = m
    · subst h1
      simp [h]
    · by_cases h2 : j = i
      · subst h2
        simp [h]
      · have h3 : ¬ m = j := fun e => h1 e.symm
        have h4 : ¬ i = j := fun e => h2 e.symm
        simp [h1, h2, h3, h4]

theorem length_swapIfNeeded (arr : List Int) (i m : Nat) :
    (swapIfNeeded arr i m).length = arr.length := by
  unfold swapIfNeeded
  split <;> simp

theorem rd_eq_getElem (arr : List Int) (i : Nat) (h : i < arr.length) :
    rd arr i = arr[i] := by
  unfold rd
  simp [h]

theorem swapIfNeeded_perm (arr : List Int) (i m : Nat) (hi : i < arr.length)
    (hm : m < arr.length) : List.Perm (swapIfNeeded arr i m) arr := by
  unfold swapIfNeeded
  by_cases h : m = i
  · simp [h]
  · simp only [ne_eq, h, not_false_eq_true, if_true]
    rw [List.perm_iff_count]
    intro x
    have hm1 : m < (arr.set i (rd arr m)).length := by simpa using hm
    rw [List.count_set _ _ _ _ hm1, List.count_set _ _ _ _ hi]
    have e1 : (arr.set i (rd arr m))[m] = arr[m] := by
      rw [List.getElem_set]
      simp [Ne.symm h]
    rw [e1, rd_eq_getElem arr i hi, rd_eq_getElem arr m hm]
    have c1 : (if arr[i] == x then 1 else 0) ≤ arr.count x := by
      by_cases hx : arr[i] = x
      · subst hx
        simp
      · simp [hx]
    generalize (if arr[i] == x then 1 else 0) = ci at c1 ⊢
    generalize (if arr[m] == x then 1 else 0) = cm
    omega

/-! ### The outer loop keeps the invariant -/

theorem sortInv_init (arr0 : List Int) : SortInv arr0 arr0.length 0 arr0 :=
  ⟨rfl, List.Perm.refl _, fun _ _ h => absurd h (Nat.not_lt_zero _)⟩

theorem sortInv_step (arr0 arr : List Int) (size n m : Nat)
    (hinv : SortInv arr0 size n arr) (hm : IsMinAt arr size n m) :
    SortInv arr0 size (n + 1) (swapIfNeeded arr n m) := by
  obtain ⟨hlen, hperm, hord⟩ := hinv
  obtain ⟨hnm, hms, hmin⟩ := hm
  have hn : n < arr.length := by omega
  have hm' : m < arr.length := by omega
  refine ⟨by rw [length_swapIfNeeded]; exact hlen,
    (swapIfNeeded_perm arr n m hn hm').trans hperm, ?_⟩
  intro a b ha hab hb
  -- every cell at or after `n` of the new array holds an old cell at or after `n`
  have key : ∀ c, n ≤ c → c < size → ∃ c', n ≤ c' ∧ c' < size ∧
      rd (swapIfNeeded arr n m) c = rd arr c' := by
    intro c hc hcs
    rw [rd_swapIfNeeded arr n m c hn hm']
    by_cases h1 : c = n
    · exact ⟨m, hnm, hms, by simp [h1]⟩
    · by_cases h2 : c = m
      · exact ⟨n, le_refl _, by omega, by rw [if_neg h1, if_pos h2]⟩
      · exact ⟨c, hc, hcs, by simp [h1, h2]⟩
  by_cases han : a = n
  · subst han
    obtain ⟨c', hc1, hc2, hc3⟩ := key b hab hb
    rw [hc3, rd_swapIfNeeded arr a m a hn hm']
    simpa using hmin c' hc1 hc2
  · have ha' : a < n := by omega
    have e1 : rd (swapIfNeeded arr n m) a = rd arr a := by
      rw [rd_swapIfNeeded arr n m a hn hm']
      have : ¬ a = m := by omega
      simp [han, this]
    rw [e1]
    by_cases hbn : b < n
    · have e2 : rd (swapIfNeeded arr n m) b = rd arr b := by
        rw [rd_swapIfNeeded arr n m b hn hm']
        have h1 : ¬ b = n := by omega
        have h2 : ¬ b = m := by omega
        simp [h1, h2]
      rw [e2]
      exact hord a b ha' hab hb
    · obtain ⟨c', hc1, hc2, hc3⟩ := key b (by omega) hb
      rw [hc3]
      exact hord a c' ha' (by omega) hc2

theorem sortInv_foldl (arr0 : List Int) (size : Nat) (f : List Int → Nat → List Int)
    (k : Nat)
    (hf : ∀ arr n, n < k → SortInv arr0 size n arr → SortInv arr0 size (n + 1) (f arr n))
    (h0 : SortInv arr0 size 0 arr0) :
    SortInv arr0 size k ((List.range k).foldl f arr0) := by
  induction k with
  | zero => simpa using h0
  | succ k ih =>
    rw [List.range_succ, List.foldl_append]
    simp only [List.foldl_cons, List.foldl_nil]
    exact hf _ k (Nat.lt_succ_self k)
      (ih (fun arr n hn hi => hf arr n (Nat.lt_succ_of_lt hn) hi))

theorem sortInv_sorted (arr0 arr : List Int) (size : Nat)
    (h : SortInv arr0 size (size - 1) arr) (i : Nat) (hi : i + 1 < size) :
    rd arr i ≤ rd arr (i + 1) :=
  h.2.2 i (i + 1) (by omega) (Nat.le_succ i) hi

/-! ### The sequential inner loop finds a minimum -/

theorem seqInner_foldl (arr : List Int) (i : Nat) :
    ∀ (len s m : Nat), i ≤ m → m < s →
      (∀ j, i ≤ j → j < s → rd arr m ≤ rd arr j) →
      IsMinAt arr (s + len) i ((List.range' s len).foldl (seqInnerBody arr) m) := by
  intro len
  induction len with
  | zero =>
    intro s m him hms hmin
    exact ⟨him, by simpa using hms, by simpa using hmin⟩
  | succ len ih =>
    intro s m him hms hmin
    rw [List.range'_succ, List.foldl_cons]
    have hs : s + (len + 1) = (s + 1) + len := by omega
    rw [hs]
    unfold seqInnerBody
    by_cases hlt : rd arr s < rd arr m
    · rw [if_pos hlt]
      refine ih (s + 1) s (by omega) (Nat.lt_succ_self s) ?_
      intro j hij hjs
      by_cases hj : j = s
      · rw [hj]
      · exact le_trans (le_of_lt hlt) (hmin j hij (by omega))
    · rw [if_neg hlt]
      refine ih (s + 1) m him (by omega) ?_
      intro j hij hjs
      by_cases hj : j = s
      · rw [hj]
        exact not_lt.mp hlt
      · exact hmin j hij (by omega)

theorem seqMinIndex_isMin (arr : List Int) (size i : Nat) (hi : i < size) :
    IsMinAt arr size i (seqMinIndex arr size i) := by
  have h := seqInner_foldl arr i (size - (i + 1)) (i + 1) i (le_refl _) (Nat.lt_succ_self i)
    (fun j h1 h2 => by
      have : j = i := by omega
      rw [this])
  have e : i + 1 + (size - (i + 1)) = size := by omega
  rw [e] at h
  exact h

theorem seq_sortInv (arr : List Int) :
    SortInv arr arr.length (arr.length - 1) (selectionSortSequential arr arr.length) := by
  unfold selectionSortSequential
  refine sortInv_foldl arr arr.length (seqOuterBody arr.length) (arr.length - 1) ?_
    (sortInv_init arr)
  intro a n hn hinv
  exact sortInv_step arr a arr.length n _ hinv (seqMinIndex_isMin a arr.length n (by omega))

/-! ### The parallel region finds a minimum -/

theorem goodPair_init (arr : List Int) (i : Nat) : GoodPair arr i [] (rd arr i, i) :=
  ⟨rfl, Or.inl rfl, le_refl _, fun _ h => absurd h (List.not_mem_nil _)⟩

theorem threadSearch_foldl (arr : List Int) (i : Nat) :
    ∀ (js seen : List Nat) (acc : Int × Nat), GoodPair arr i seen acc →
      GoodPair arr i (seen ++ js)
        (js.foldl (fun l j => if rd arr j < l.1 then (rd arr j, j) else l) acc) := by
  intro js
  induction js with
  | nil =>
    intro seen acc h
    simpa using h
  | cons j js ih =>
    intro seen acc h
    obtain ⟨h1, h2, h3, h4⟩ := h
    rw [List.foldl_cons]
    have e : seen ++ j :: js = (seen ++ [j]) ++ js := by simp
    rw [e]
    apply ih
    by_cases hlt : rd arr j < acc.1
    · rw [if_pos hlt]
      refine ⟨rfl, Or.inr (by simp), le_trans (le_of_lt hlt) h3, ?_⟩
      intro x hx
      rcases List.mem_append.mp hx with hx | hx
      · exact le_trans (le_of_lt hlt) (h4 x hx)
      · rw [List.mem_singleton.mp hx]
    · rw [if_neg hlt]
      refine ⟨h1, ?_, h3, ?_⟩
      · rcases h2 with h2 | h2
        · exact Or.inl h2
        · exact Or.inr (List.mem_append_left _ h2)
      · intro x hx
        rcases List.mem_append.mp hx with hx | hx
        · exact h4 x hx
        · rw [List.mem_singleton.mp hx]
          exact not_lt.mp hlt

theorem threadSearch_good (arr : List Int) (i : Nat) (js : List Nat) :
    GoodPair arr i js (threadSearch arr i js) := by
  have h := threadSearch_foldl arr i js [] (rd arr i, i) (goodPair_init arr i)
  simpa [threadSearch] using h

theorem criticalUpdate_good (arr : List Int) (i : Nat) (seen js : List Nat)
    (g l : Int × Nat) (hg : GoodPair arr i seen g) (hl : GoodPair arr i js l) :
    GoodPair arr i (seen ++ js) (criticalUpdate g l) := by
  obtain ⟨g1, g2, g3, g4⟩ := hg
  obtain ⟨l1, l2, l3, l4⟩ := hl
  unfold criticalUpdate
  by_cases hlt : l.1 < g.1
  · rw [if_pos hlt]
    refine ⟨l1, ?_, l3, ?_⟩
    · rcases l2 with l2 | l2
      · exact Or.inl l2
      · exact Or.inr (List.mem_append_right _ l2)
    · intro x hx
      rcases List.mem_append.mp hx with hx | hx
      · exact le_trans (le_of_lt hlt) (g4 x hx)
      · exact l4 x hx
  · rw [if_neg hlt]
    refine ⟨g1, ?_, g3, ?_⟩
    · rcases g2 with g2 | g2
      · exact Or.inl g2
      · exact Or.inr (List.mem_append_left _ g2)
    · intro x hx
      rcases List.mem_append.mp hx with hx | hx
      · exact g4 x hx
      · exact le_trans (not_lt.mp hlt) (l4 x hx)

theorem critical_foldl (arr : List Int) (i : Nat) :
    ∀ (threads : List (List Nat)) (seen : List Nat) (g : Int × Nat),
      GoodPair arr i seen g →
      GoodPair arr i (seen ++ threads.flatten)
        ((threads.map (threadSearch arr i)).foldl criticalUpdate g) := by
  intro threads
  induction threads with
  | nil =>
    intro seen g h
    simpa using h
  | cons t ts ih =>
    intro seen g h
    rw [List.map_cons, List.foldl_cons]
    have e : seen ++ (t :: ts).flatten = (seen ++ t) ++ ts.flatten := by simp
    rw [e]
    exact ih (seen ++ t) _ (criticalUpdate_good arr i seen t g _ h (threadSearch_good arr i t))

theorem parMinIndex_isMin (arr : List Int) (size i : Nat) (threads : List (List Nat))
    (hi : i < size) (hv : ValidSplit size i threads) :
    IsMinAt arr size i (parMinIndex arr i threads) := by
  have h := critical_foldl arr i threads [] (rd arr i, i) (goodPair_init arr i)
  rw [List.nil_append] at h
  obtain ⟨h1, h2, h3, h4⟩ := h
  have hmem : ∀ j, j ∈ threads.flatten ↔ i + 1 ≤ j ∧ j < size := by
    intro j
    rw [List.Perm.mem_iff hv, List.mem_range'_1]
    constructor
    · rintro ⟨a, b⟩
      exact ⟨a, by omega⟩
    · rintro ⟨a, b⟩
      exact ⟨a, by omega⟩
  unfold parMinIndex
  refine ⟨?_, ?_, ?_⟩
  · rcases h2 with h2 | h2
    · rw [h2]
    · have := (hmem _).mp h2
      omega
  · rcases h2 with h2 | h2
    · rw [h2]
      exact hi
    · exact ((hmem _).mp h2).2
  · intro j hij hjs
    rw [← h1]
    by_cases hj : j = i
    · rw [hj]
      exact h3
    · exact h4 j ((hmem j).mpr ⟨by omega, hjs⟩)

theorem par_sortInv (sched : Nat → List (List Nat)) (arr : List Int)
    (hs : ∀ i, i + 1 < arr.length → ValidSplit arr.length i (sched i)) :
    SortInv arr arr.length (arr.length - 1) (selectionSortParallel sched arr arr.length) := by
  unfold selectionSortParallel
  refine sortInv_foldl arr arr.length (parOuterBody sched) (arr.length - 1) ?_
    (sortInv_init arr)
  intro a n hn hinv
  exact sortInv_step arr a arr.length n _ hinv
    (parMinIndex_isMin a arr.length n (sched n) (by omega) (hs n (by omega)))

/-! ## Claims on the selection sort -/

/-- C1: after `selectionSortSequential(arr, size)` the array is non-decreasing,
`arr[i] <= arr[i+1]` for every `0 <= i < size - 1`, for every array of every size. -/
theorem selectionSortSequential_sorted (arr : List Int) (i : Nat)
    (hi : (i : Int) < (arr.length : Int) - 1) :
    rd (selectionSortSequential arr arr.length) i ≤
      rd (selectionSortSequential arr arr.length) (i + 1) :=
  sortInv_sorted arr _ arr.length (seq_sortInv arr) i (by omega)

/-- Witness of C1 on the array `{3, 1, 2}` at index `0`. -/
theorem selectionSortSequential_sorted_witness :
    rd (selectionSortSequential [3, 1, 2] 3) 0 ≤ rd (selectionSortSequential [3, 1, 2] 3) 1 :=
  selectionSortSequential_sorted [3, 1, 2] 0 (by decide)

/-- C2: the array left by `selectionSortSequential(arr, size)` is a permutation of the
input: it has the same length and holds every value the same number of times. -/
theorem selectionSortSequential_perm (arr : List Int) :
    List.Perm (selectionSortSequential arr arr.length) arr ∧
      (selectionSortSequential arr arr.length).length = arr.length ∧
      ∀ x : Int, (selectionSortSequential arr arr.length).count x = arr.count x :=
  ⟨(seq_sortInv arr).2.1, (seq_sortInv arr).1,
    fun x => List.Perm.count_eq (seq_sortInv arr).2.1 x⟩

example : selectionSortSequential [] 0 = [] := by decide

/-- C3: for every array, every split of the inner-loop indices `i+1 .. size-1` among
threads and every order in which the threads enter the critical section,
`selectionSortParallel(arr, size)` leaves a non-decreasing array that is a permutation
of the input. -/
theorem selectionSortParallel_sorted_perm (sched : Nat → List (List Nat)) (arr : List Int)
    (hs : ∀ i : Nat, (i : Int) < (arr.length : Int) - 1 → ValidSplit arr.length i (sched i)) :
    (∀ i : Nat, (i : Int) < (arr.length : Int) - 1 →
        rd (selectionSortParallel sched arr arr.length) i ≤
          rd (selectionSortParallel sched arr arr.length) (i + 1)) ∧
      List.Perm (selectionSortParallel sched arr arr.length) arr := by
  have h := par_sortInv sched arr (fun i hi => hs i (by omega))
  exact ⟨fun i hi => sortInv_sorted arr _ arr.length h i (by omega), h.2.1⟩

/-- The two-thread schedule splits the inner loops of the array `{3, 1, 2}`. -/
theorem twoThreadSched_valid_three (i : Nat)
    (hi : (i : Int) < (([3, 1, 2] : List Int).length : Int) - 1) :
    ValidSplit ([3, 1, 2] : List Int).length i (twoThreadSched 3 i) := by
  have hi2 : i = 0 ∨ i = 1 := by
    simp only [List.length_cons, List.length_nil] at hi
    omega
  rcases hi2 with rfl | rfl
  · show List.Perm [2, 1] [1, 2]
    exact List.Perm.swap 1 2 []
  · show List.Perm [2] [2]
    exact List.Perm.refl _

/-- Witness of C3: the array `{3, 1, 2}` sorted under the two-thread schedule. -/
theorem selectionSortParallel_sorted_perm_witness :
    rd (selectionSortParallel (twoThreadSched 3) [3, 1, 2] 3) 0 ≤
        rd (selectionSortParallel (twoThreadSched 3) [3, 1, 2] 3) 1 ∧
      List.Perm (selectionSortParallel (twoThreadSched 3) [3, 1, 2] 3) [3, 1, 2] :=
  ⟨(selectionSortParallel_sorted_perm (twoThreadSched 3) [3, 1, 2]
      twoThreadSched_valid_three).1 0 (by decide),
   (selectionSortParallel_sorted_perm (twoThreadSched 3) [3, 1, 2]
      twoThreadSched_valid_three).2⟩

/-! ## Minimum and maximum (task2_openmp.cpp) -/

theorem sharedInv_init (arr : List Int) : SharedInv arr [] (rd arr 0, rd arr 0) :=
  ⟨Or.inl rfl, le_refl _, fun _ h => absurd h (List.not_mem_nil _),
    Or.inl rfl, le_refl _, fun _ h => absurd h (List.not_mem_nil _)⟩

theorem threadInv_init (arr : List Int) : ThreadInv arr [] (INT_MAX, INT_MIN) :=
  ⟨Or.inl rfl, fun _ h => absurd h (List.not_mem_nil _),
    Or.inl rfl, fun _ h => absurd h (List.not_mem_nil _)⟩

theorem minMaxBody_shared (arr : List Int) (seen : List Nat) (acc : Int × Int) (i : Nat)
    (h : SharedInv arr seen acc) : SharedInv arr (seen ++ [i]) (minMaxBody arr acc i) := by
  obtain ⟨a1, a2, a3, b1, b2, b3⟩ := h
  unfold minMaxBody
  refine ⟨?_, ?_, ?_, ?_, ?_, ?_⟩
  · by_cases hlt : rd arr i < acc.1
    · simp only [if_pos hlt]
      exact Or.inr ⟨i, by simp, rfl⟩
    · simp only [if_neg hlt]
      rcases a1 with a1 | ⟨j, hj, e⟩
      · exact Or.inl a1
      · exact Or.inr ⟨j, List.mem_append_left _ hj, e⟩
  · by_cases hlt : rd arr i < acc.1
    · simp only [if_pos hlt]
      exact le_trans (le_of_lt hlt) a2
    · simp only [if_neg hlt]
      exact a2
  · intro j hj
    rcases List.mem_append.mp hj with hj | hj
    · by_cases hlt : rd arr i < acc.1
      · simp only [if_pos hlt]
        exact le_trans (le_of_lt hlt) (a3 j hj)
      · simp only [if_neg hlt]
        exact a3 j hj
    · rw [List.mem_singleton.mp hj]
      by_cases hlt : rd arr i < acc.1
      · simp only [if_pos hlt, le_refl]
      · simp only [if_neg hlt]
        exact not_lt.mp hlt
  · by_cases hgt : rd arr i > acc.2
    · simp only [if_pos hgt]
      exact Or.inr ⟨i, by simp, rfl⟩
    · simp only [if_neg hgt]
      rcases b1 with b1 | ⟨j, hj, e⟩
      · exact Or.inl b1
      · exact Or.inr ⟨j, List.mem_append_left _ hj, e⟩
  · by_cases hgt : rd arr i > acc.2
    · simp only [if_pos hgt]
      exact le_trans b2 (le_of_lt hgt)
    · simp only [if_neg hgt]
      exact b2
  · intro j hj
    rcases List.mem_append.mp hj with hj | hj
    · by_cases hgt : rd arr i > acc.2
      · simp only [if_pos hgt]
        exact le_trans (b3 j hj) (le_of_lt hgt)
      · simp only [if_neg hgt]
        exact b3 j hj
    · rw [List.mem_singleton.mp hj]
      by_cases hgt : rd arr i > acc.2
      · simp only [if_pos hgt, le_refl]
      · simp only [if_neg hgt]
        exact not_lt.mp hgt

theorem minMaxBody_thread (arr : List Int) (seen : List Nat) (acc : Int × Int) (i : Nat)
    (h : ThreadInv arr seen acc) : ThreadInv arr (seen ++ [i]) (minMaxBody arr acc i) := by
  obtain ⟨a1, a3, b1, b3⟩ := h
  unfold minMaxBody
  refine ⟨?_, ?_, ?_, ?_⟩
  · by_cases hlt : rd arr i < acc.1
    · simp only [if_pos hlt]
      exact Or.inr ⟨i, by simp, rfl⟩
    · simp only [if_neg hlt]
      rcases a1 with a1 | ⟨j, hj, e⟩
      · exact Or.inl a1
      · exact Or.inr ⟨j, List.mem_append_left _ hj, e⟩
  · intro j hj
    rcases List.mem_append.mp hj with hj | hj
    · by_cases hlt : rd arr i < acc.1
      · simp only [if_pos hlt]
        exact le_trans (le_of_lt hlt) (a3 j hj)
      · simp only [if_neg hlt]
        exact a3 j hj
    · rw [List.mem_singleton.mp hj]
      by_cases hlt : rd arr i < acc.1
      · simp only [if_pos hlt, le_refl]
      · simp only [if_neg hlt]
        exact not_lt.mp hlt
  · by_cases hgt : rd arr i > acc.2
    · simp only [if_pos hgt]
      exact Or.inr ⟨i, by simp, rfl⟩
    · simp only [if_neg hgt]
      rcases b1 with b1 | ⟨j, hj, e⟩
      · exact Or.inl b1
      · exact Or.inr ⟨j, List.mem_append_left _ hj, e⟩
  · intro j hj
    rcases List.mem_append.mp hj with hj | hj
    · by_cases hgt : rd arr i > acc.2
      · simp only [if_pos hgt]
        exact le_trans (b3 j hj) (le_of_lt hgt)
      · simp only [if_neg hgt]
        exact b3 j hj
    · rw [List.mem_singleton.mp hj]
      by_cases hgt : rd arr i > acc.2
      · simp only [if_pos hgt, le_refl]
      · simp only [if_neg hgt]
        exact not_lt.mp hgt

theorem shared_foldl (arr : List Int) :
    ∀ (js seen : List Nat) (acc : Int × Int), SharedInv arr seen acc →
      SharedInv arr (seen ++ js) (js.foldl (minMaxBody arr) acc) := by
  intro js
  induction js with
  | nil =>
    intro seen acc h
    simpa using h
  | cons j js ih =>
    intro seen acc h
    rw [List.foldl_cons]
    have e : seen ++ j :: js = (seen ++ [j]) ++ js := by simp
    rw [e]
    exact ih _ _ (minMaxBody_shared arr seen acc j h)

theorem thread_foldl (arr : List Int) :
    ∀ (js seen : List Nat) (acc : Int × Int), ThreadInv arr seen acc →
      ThreadInv arr (seen ++ js) (js.foldl (minMaxBody arr) acc) := by
  intro js
  induction js with
  | nil =>
    intro seen acc h
    simpa using h
  | cons j js ih =>
    intro seen acc h
    rw [List.foldl_cons]
    have e : seen ++ j :: js = (seen ++ [j]) ++ js := by simp
    rw [e]
    exact ih _ _ (minMaxBody_thread arr seen acc j h)

theorem threadReduce_inv (arr : List Int) (js : List Nat) :
    ThreadInv arr js (threadReduce arr js) := by
  have h := thread_foldl arr js [] (INT_MAX, INT_MIN) (threadInv_init arr)
  simpa [threadReduce] using h

theorem rd_in_range (arr : List Int) (h : IsIntArray arr) (j : Nat) :
    INT_MIN ≤ rd arr j ∧ rd arr j ≤ INT_MAX := by
  by_cases hj : j < arr.length
  · rw [rd_eq_getElem arr j hj]
    exact h _ (List.getElem_mem hj)
  · have e : rd arr j = 0 := by
      unfold rd
      simp [List.getElem?_eq_none (not_lt.mp hj)]
    rw [e]
    unfold INT_MIN INT_MAX
    omega

theorem combine_shared (arr : List Int) (hr : IsIntArray arr) (seen js : List Nat)
    (g l : Int × Int) (hg : SharedInv arr seen g) (hl : ThreadInv arr js l) :
    SharedInv arr (seen ++ js) (combine g l) := by
  obtain ⟨a1, a2, a3, b1, b2, b3⟩ := hg
  obtain ⟨c1, c3, d1, d3⟩ := hl
  have gmax : g.1 ≤ INT_MAX := le_trans a2 (rd_in_range arr hr 0).2
  have gmin : INT_MIN ≤ g.2 := le_trans (rd_in_range arr hr 0).1 b2
  unfold combine
  refine ⟨?_, ?_, ?_, ?_, ?_, ?_⟩
  · by_cases hlt : l.1 < g.1
    · simp only [if_pos hlt]
      rcases c1 with c1 | ⟨j, hj, e⟩
      · omega
      · exact Or.inr ⟨j, List.mem_append_right _ hj, e⟩
    · simp only [if_neg hlt]
      rcases a1 with a1 | ⟨j, hj, e⟩
      · exact Or.inl a1
      · exact Or.inr ⟨j, List.mem_append_left _ hj, e⟩
  · by_cases hlt : l.1 < g.1
    · simp only [if_pos hlt]
      exact le_trans (le_of_lt hlt) a2
    · simp only [if_neg hlt]
      exact a2
  · intro j hj
    rcases List.mem_append.mp hj with hj | hj
    · by_cases hlt : l.1 < g.1
      · simp only [if_pos hlt]
        exact le_trans (le_of_lt hlt) (a3 j hj)
      · simp only [if_neg hlt]
        exact a3 j hj
    · by_cases hlt : l.1 < g.1
      · simp only [if_pos hlt]
        exact c3 j hj
      · simp only [if_neg hlt]
        exact le_trans (not_lt.mp hlt) (c3 j hj)
  · by_cases hgt : l.2 > g.2
    · simp only [if_pos hgt]
      rcases d1 with d1 | ⟨j, hj, e⟩
      · omega
      · exact Or.inr ⟨j, List.mem_append_right _ hj, e⟩
    · simp only [if_neg hgt]
      rcases b1 with b1 | ⟨j, hj, e⟩
      · exact Or.inl b1
      · exact Or.inr ⟨j, List.mem_append_left _ hj, e⟩
  · by_cases hgt : l.2 > g.2
    · simp only [if_pos hgt]
      exact le_trans b2 (le_of_lt hgt)
    · simp only [if_neg hgt]
      exact b2
  · intro j hj
    rcases List.mem_append.mp hj with hj | hj
    · by_cases hgt : l.2 > g.2
      · simp only [if_pos hgt]
        exact le_trans (b3 j hj) (le_of_lt hgt)
      · simp only [if_neg hgt]
        exact b3 j hj
    · by_cases hgt : l.2 > g.2
      · simp only [if_pos hgt]
        exact d3 j hj
      · simp only [if_neg hgt]
        exact le_trans (d3 j hj) (not_lt.mp hgt)

theorem combine_foldl (arr : List Int) (hr : IsIntArray arr) :
    ∀ (threads : List (List Nat)) (seen : List Nat) (g : Int × Int),
      SharedInv arr seen g →
      SharedInv arr (seen ++ threads.flatten)
        ((threads.map (threadReduce arr)).foldl combine g) := by
  intro threads
  induction threads with
  | nil =>
    intro seen g h
    simpa using h
  | cons t ts ih =>
    intro seen g h
    rw [List.map_cons, List.foldl_cons]
    have e : seen ++ (t :: ts).flatten = (seen ++ t) ++ ts.flatten := by simp
    rw [e]
    exact ih (seen ++ t) _ (combine_shared arr hr seen t g _ h (threadReduce_inv arr t))

theorem sharedInv_isMinMax (arr : List Int) (size : Nat) (seen : List Nat) (p : Int × Int)
    (hsize : 1 ≤ size) (hseen : ∀ j, j ∈ seen ↔ 1 ≤ j ∧ j < size)
    (h : SharedInv arr seen p) : IsMinMax arr size p := by
  obtain ⟨a1, a2, a3, b1, b2, b3⟩ := h
  refine ⟨?_, ?_, ?_⟩
  · rcases a1 with a1 | ⟨j, hj, e⟩
    · exact ⟨0, by omega, a1⟩
    · exact ⟨j, ((hseen j).mp hj).2, e⟩
  · rcases b1 with b1 | ⟨j, hj, e⟩
    · exact ⟨0, by omega, b1⟩
    · exact ⟨j, ((hseen j).mp hj).2, e⟩
  · intro i hi
    by_cases h0 : i = 0
    · rw [h0]
      exact ⟨a2, b2⟩
    · have hm : i ∈ seen := (hseen i).mpr ⟨by omega, hi⟩
      exact ⟨a3 i hm, b3 i hm⟩

theorem isMinMax_unique (arr : List Int) (size : Nat) (p q : Int × Int)
    (hp : IsMinMax arr size p) (hq : IsMinMax arr size q) : p = q := by
  obtain ⟨⟨i1, hi1, e1⟩, ⟨i2, hi2, e2⟩, hpb⟩ := hp
  obtain ⟨⟨j1, hj1, f1⟩, ⟨j2, hj2, f2⟩, hqb⟩ := hq
  have m1 : p.1 ≤ q.1 := by rw [f1]; exact (hpb j1 hj1).1
  have m2 : q.1 ≤ p.1 := by rw [e1]; exact (hqb i1 hi1).1
  have m3 : p.2 ≤ q.2 := by rw [e2]; exact (hqb i2 hi2).2
  have m4 : q.2 ≤ p.2 := by rw [f2]; exact (hpb j2 hj2).2
  exact Prod.ext (le_antisymm m1 m2) (le_antisymm m3 m4)

theorem mem_range_one (size j : Nat) (hsize : 1 ≤ size) :
    j ∈ List.range' 1 (size - 1) ↔ 1 ≤ j ∧ j < size := by
  rw [List.mem_range'_1]
  constructor
  · rintro ⟨a, b⟩
    exact ⟨a, by omega⟩
  · rintro ⟨a, b⟩
    exact ⟨a, by omega⟩

theorem findMinMaxSequential_isMinMax (arr : List Int) (size : Nat) (hsize : 1 ≤ size) :
    IsMinMax arr size (findMinMaxSequential arr size) := by
  have h := shared_foldl arr (List.range' 1 (size - 1)) [] _ (sharedInv_init arr)
  rw [List.nil_append] at h
  exact sharedInv_isMinMax arr size _ _ hsize (fun j => mem_range_one size j hsize) h

theorem findMinMaxParallel_isMinMax (threads : List (List Nat)) (arr : List Int) (size : Nat)
    (hsize : 1 ≤ size) (hr : IsIntArray arr) (hv : ValidReductionSplit size threads) :
    IsMinMax arr size (findMinMaxParallel threads arr size) := by
  have h := combine_foldl arr hr threads [] _ (sharedInv_init arr)
  rw [List.nil_append] at h
  refine sharedInv_isMinMax arr size _ _ hsize (fun j => ?_) h
  rw [List.Perm.mem_iff hv]
  exact mem_range_one size j hsize

/-- C4: for every non-empty `int` array, every split of the indices `1 .. size-1`
among threads and every order of merging the per-thread partial results,
`findMinMaxParallel` returns the same `minVal` and `maxVal` as `findMinMaxSequential`. -/
theorem findMinMaxParallel_eq_sequential (threads : List (List Nat)) (arr : List Int)
    (hne : 1 ≤ arr.length) (hr : IsIntArray arr)
    (hv : ValidReductionSplit arr.length threads) :
    findMinMaxParallel threads arr arr.length = findMinMaxSequential arr arr.length :=
  isMinMax_unique arr arr.length _ _
    (findMinMaxParallel_isMinMax threads arr arr.length hne hr hv)
    (findMinMaxSequential_isMinMax arr arr.length hne)

/-- Witness of C4 on the array `{4, -7, 9, 0}` with two threads. -/
theorem findMinMaxParallel_eq_sequential_witness :
    findMinMaxParallel (twoThreadReduction 4) [4, -7, 9, 0] ([4, -7, 9, 0] : List Int).length =
      findMinMaxSequential [4, -7, 9, 0] ([4, -7, 9, 0] : List Int).length :=
  findMinMaxParallel_eq_sequential (twoThreadReduction 4) [4, -7, 9, 0] (by decide)
    (by unfold IsIntArray INT_MIN INT_MAX; decide)
    (by
      show List.Perm [2, 3, 1] [1, 2, 3]
      decide)

/-- C5: for every array with `size >= 1`, `findMinMaxSequential` sets `minVal` to the
minimum and `maxVal` to the maximum of `arr[0 .. size-1]`: both occur in the array and
`minVal <= arr[i] <= maxVal` for every `0 <= i < size`. -/
theorem findMinMaxSequential_spec (arr : List Int) (hne : 1 ≤ arr.length) :
    (findMinMaxSequential arr arr.length).1 ∈ arr ∧
      (findMinMaxSequential arr arr.length).2 ∈ arr ∧
      ∀ i, i < arr.length → (findMinMaxSequential arr arr.length).1 ≤ rd arr i ∧
        rd arr i ≤ (findMinMaxSequential arr arr.length).2 := by
  obtain ⟨⟨i1, hi1, e1⟩, ⟨i2, hi2, e2⟩, hb⟩ :=
    findMinMaxSequential_isMinMax arr arr.length hne
  refine ⟨?_, ?_, hb⟩
  · rw [e1, rd_eq_getElem arr i1 hi1]
    exact List.getElem_mem hi1
  · rw [e2, rd_eq_getElem arr i2 hi2]
    exact List.getElem_mem hi2

/-- Witness of C5 on the array `{4, -7, 9, 0}`, at index `2`. -/
theorem findMinMaxSequential_spec_witness :
    (findMinMaxSequential [4, -7, 9, 0] 4).1 ∈ ([4, -7, 9, 0] : List Int) ∧
      (findMinMaxSequential [4, -7, 9, 0] 4).2 ∈ ([4, -7, 9, 0] : List Int) ∧
      (findMinMaxSequential [4, -7, 9, 0] 4).1 ≤ rd [4, -7, 9, 0] 2 ∧
      rd [4, -7, 9, 0] 2 ≤ (findMinMaxSequential [4, -7, 9, 0] 4).2 :=
  ⟨(findMinMaxSequential_spec [4, -7, 9, 0] (by decide)).1,
   (findMinMaxSequential_spec [4, -7, 9, 0] (by decide)).2.1,
   (findMinMaxSequential_spec [4, -7, 9, 0] (by decide)).2.2 2 (by decide)⟩

/-! ## Work partition (practice-6) -/

theorem roundUpGlobal_eq (n loc : Nat) (hloc : 0 < loc) (hfit : n + loc - 1 < SIZE_MOD) :
    roundUpGlobal n loc = (n + loc - 1) / loc * loc := by
  unfold roundUpGlobal sizeMul sizeSub sizeAdd
  unfold SIZE_MOD at *
  have e1 : ((n + loc) % 2 ^ 64 + 2 ^ 64 - 1 % 2 ^ 64) % 2 ^ 64 = n + loc - 1 := by
    have h1 : (1 : Nat) % 2 ^ 64 = 1 := by norm_num
    rw [h1]
    by_cases hw : n + loc < 2 ^ 64
    · rw [Nat.mod_eq_of_lt hw]
      omega
    · have hw2 : n + loc = 2 ^ 64 := by omega
      rw [hw2]
      norm_num
  rw [e1]
  apply Nat.mod_eq_of_lt
  exact lt_of_le_of_lt (Nat.div_mul_le_self _ _) hfit

example : roundUpGlobal 500 16 = 512 := by decide

/-- C6, as stated, fails: with `size_t` operands the sum `n + local - 1` wraps around
for the extent `n = 2^64 - 8` and `local = 16`, and the formula yields `0`, which is
not `>= n`. -/
theorem roundUpGlobal_wraps :
    0 < 16 ∧ roundUpGlobal (2 ^ 64 - 8) 16 = 0 ∧
      ¬ (2 ^ 64 - 8 ≤ roundUpGlobal (2 ^ 64 - 8) 16) := by
  decide

/-- C6, amended: for every extent `n` and every `local > 0` such that `n + local - 1`
fits in `size_t`, the formula `((n + local - 1) / local) * local` yields the least
multiple of `local` that is `>= n`: the result is divisible by `local`, is `>= n` and
is `< n + local`. In particular `n = 512`, `local = 16` gives `512` and `n = 500`,
`local = 16` gives `512`. -/
theorem roundUpGlobal_spec (n loc : Nat) (hloc : 0 < loc) (hfit : n + loc - 1 < SIZE_MOD) :
    loc ∣ roundUpGlobal n loc ∧ n ≤ roundUpGlobal n loc ∧ roundUpGlobal n loc < n + loc ∧
      (∀ m, loc ∣ m → n ≤ m → roundUpGlobal n loc ≤ m) ∧
      roundUpGlobal 512 16 = 512 ∧ roundUpGlobal 500 16 = 512 := by
  rw [roundUpGlobal_eq n loc hloc hfit]
  have hdm := Nat.div_add_mod (n + loc - 1) loc
  have hmod := Nat.mod_lt (n + loc - 1) hloc
  have hcomm : loc * ((n + loc - 1) / loc) = (n + loc - 1) / loc * loc := Nat.mul_comm _ _
  have hge : n ≤ (n + loc - 1) / loc * loc := by omega
  have hlt : (n + loc - 1) / loc * loc < n + loc := by omega
  refine ⟨Nat.dvd_mul_left _ _, hge, hlt, ?_, by decide, by decide⟩
  intro m hm hnm
  obtain ⟨q, rfl⟩ := hm
  by_contra hcon
  have h1 : loc * q < (n + loc - 1) / loc * loc := not_le.mp hcon
  rw [Nat.mul_comm loc q] at h1 hnm
  have h2 : q < (n + loc - 1) / loc := Nat.lt_of_mul_lt_mul_right h1
  have h3 : (q + 1) * loc ≤ (n + loc - 1) / loc * loc := Nat.mul_le_mul_right loc h2
  rw [Nat.add_mul, Nat.one_mul] at h3
  omega

/-- Witness of the amended C6 at `n = 500`, `local = 16`, compared with the
multiple `528`. -/
theorem roundUpGlobal_spec_witness :
    16 ∣ roundUpGlobal 500 16 ∧ 500 ≤ roundUpGlobal 500 16 ∧ roundUpGlobal 500 16 < 500 + 16 ∧
      roundUpGlobal 500 16 ≤ 528 :=
  ⟨(roundUpGlobal_spec 500 16 (by decide) (by decide)).1,
   (roundUpGlobal_spec 500 16 (by decide) (by decide)).2.1,
   (roundUpGlobal_spec 500 16 (by decide) (by decide)).2.2.1,
   (roundUpGlobal_spec 500 16 (by decide) (by decide)).2.2.2.1 528 (by decide) (by decide)⟩

/-- C7: in each OpenCL benchmark the element count of the host output buffer equals the
product of the global extents of the dispatch: `ARRAY_SIZE = global_size` for the
vector addition, and `N * K = global_size[0] * global_size[1]` for the matrix
multiplication after the rounding to multiples of the 16 x 16 local extent. -/
theorem output_count_eq_global_extent :
    vectorAddOutputCount = vectorAddGlobalSize ∧ vectorAddGlobalSize = ARRAY_SIZE ∧
      matrixOutputCount N K = (matrixGlobalSize N K).1 * (matrixGlobalSize N K).2 ∧
      matrixOutputCount N K = N * K ∧ matrixGlobalSize N K = (512, 512) := by
  decide

/-! ## Exit code and teardown of `main` (practice-6) -/

theorem vectorAdd_fromDevice_exitCode (st : ApiStatus) (errors : Nat) (log : List Call) :
    (VectorAdd.mainFromDevice st errors log).exitCode =
      if DeviceStepsSucceed st then 0 else 1 := by
  unfold VectorAdd.mainFromDevice DeviceStepsSucceed
  split_ifs <;> first | rfl | (exfalso; simp_all)

theorem matrixMultiply_fromDevice_exitCode (st : ApiStatus) (errors : Nat) (log : List Call) :
    (MatrixMultiply.mainFromDevice st errors log).exitCode =
      if DeviceStepsSucceed st then 0 else 1 := by
  unfold MatrixMultiply.mainFromDevice DeviceStepsSucceed
  split_ifs <;> first | rfl | (exfalso; simp_all)

/-- C8, as stated, fails in both programs: a failed GPU query followed by a successful
CPU query, or a failed result readback, still ends with exit code `0`. -/
theorem main_exit_zero_after_failed_call :
    (VectorAdd.main { okStatus with getDeviceIDsGpu := -1 } 0).exitCode = 0 ∧
      (MatrixMultiply.main { okStatus with getDeviceIDsGpu := -1 } 0).exitCode = 0 ∧
      (VectorAdd.main { okStatus with enqueueReadBuffer := -5 } 0).exitCode = 0 ∧
      (MatrixMultiply.main { okStatus with enqueueReadBuffer := -5 } 0).exitCode = 0 := by
  decide

/-- C8, amended: in both programs, whenever the platform query, the device discovery
(the GPU query and the CPU query that follows it), the creation of the context, queue,
program, kernel or of one of the three buffers, the build, or the dispatch returns a
non-success status, `main` returns exit code `1`. -/
theorem main_fatal_failure_exit (st : ApiStatus) (errors : Nat) (h : FatalFailure st) :
    (VectorAdd.main st errors).exitCode = 1 ∧ (MatrixMultiply.main st errors).exitCode = 1 := by
  unfold FatalFailure at h
  constructor
  · unfold VectorAdd.main
    split_ifs <;> first
      | rfl
      | (rw [vectorAdd_fromDevice_exitCode, if_neg]
         unfold DeviceStepsSucceed
         rintro ⟨a1, a2, a3, a4, a5, a6, a7, a8, a9, a10⟩
         simp_all)
  · unfold MatrixMultiply.main
    split_ifs <;> first
      | rfl
      | (rw [matrixMultiply_fromDevice_exitCode, if_neg]
         unfold DeviceStepsSucceed
         rintro ⟨a1, a2, a3, a4, a5, a6, a7, a8, a9, a10⟩
         simp_all)

/-- Witness of the amended C8: the context creation fails with `CL_OUT_OF_HOST_MEMORY`. -/
theorem main_fatal_failure_exit_witness :
    (VectorAdd.main { okStatus with createContext := -6 } 0).exitCode = 1 ∧
      (MatrixMultiply.main { okStatus with createContext := -6 } 0).exitCode = 1 :=
  main_fatal_failure_exit { okStatus with createContext := -6 } 0
    (Or.inr (Or.inr (Or.inl (by decide))))

/-- C9, as stated, fails in both programs: with the host allocation and every OpenCL
call succeeding, `main` returns `1` when `read_kernel_file` cannot read the kernel
source. -/
theorem main_exit_one_without_kernel_source :
    AllCallsSucceed { okStatus with readKernelFile := false } ∧
      (VectorAdd.main { okStatus with readKernelFile := false } 0).exitCode = 1 ∧
      (MatrixMultiply.main { okStatus with readKernelFile := false } 0).exitCode = 1 := by
  refine ⟨?_, by decide, by decide⟩
  unfold AllCallsSucceed
  decide

/-- C9, amended: in both programs, when the host allocation, the read of the kernel
source file and every OpenCL call succeed, `main` returns exit code `0` whatever the
verification error count is; the verdict is PASSED exactly when the count is `0`, and
the exit code is the same for a PASSED and a FAILED run. -/
theorem main_exit_zero_whatever_errors (st : ApiStatus) (h : AllCallsSucceed st)
    (hk : st.readKernelFile = true) (errors : Nat) :
    (VectorAdd.main st errors).exitCode = 0 ∧ (MatrixMultiply.main st errors).exitCode = 0 ∧
      (VectorAdd.main st errors).passed = some (errors == 0) ∧
      (MatrixMultiply.main st errors).passed = some (errors == 0) ∧
      (VectorAdd.main st errors).exitCode = (VectorAdd.main st 0).exitCode ∧
      (MatrixMultiply.main st errors).exitCode = (MatrixMultiply.main st 0).exitCode := by
  obtain ⟨h1, h2, h3, h4, h5, h6, h7, h8, h9, h10, h11, h12, _⟩ := h
  unfold VectorAdd.main VectorAdd.mainFromDevice MatrixMultiply.main
    MatrixMultiply.mainFromDevice
  simp [h1, h2, h3, h4, h5, h6, h7, h8, h9, h10, h11, h12, hk]

/-- Witness of the amended C9: a FAILED run with three wrong elements. -/
theorem main_exit_zero_whatever_errors_witness :
    (VectorAdd.main okStatus 3).exitCode = 0 ∧ (MatrixMultiply.main okStatus 3).exitCode = 0 ∧
      (VectorAdd.main okStatus 3).passed = some (3 == 0) ∧
      (MatrixMultiply.main okStatus 3).passed = some (3 == 0) ∧
      (VectorAdd.main okStatus 3).exitCode = (VectorAdd.main okStatus 0).exitCode ∧
      (MatrixMultiply.main okStatus 3).exitCode = (MatrixMultiply.main okStatus 0).exitCode :=
  main_exit_zero_whatever_errors okStatus (by unfold AllCallsSucceed; decide) (by decide) 3

/-- C10 fails on the code: when `clCreateBuffer` succeeds for `bufferA` and `bufferC` and
fails for `bufferB`, both programs release kernel, program, queue and context and
return `1`; the two buffers that were created are never released. -/
theorem main_leaks_created_buffers :
    (VectorAdd.main { okStatus with createBufferB := -4 } 0).exitCode = 1 ∧
      acquired { okStatus with createBufferB := -4 }
        (VectorAdd.main { okStatus with createBufferB := -4 } 0).calls Handle.bufferA ∧
      releaseCount (VectorAdd.main { okStatus with createBufferB := -4 } 0).calls
        Handle.bufferA = 0 ∧
      (MatrixMultiply.main { okStatus with createBufferB := -4 } 0).exitCode = 1 ∧
      acquired { okStatus with createBufferB := -4 }
        (MatrixMultiply.main { okStatus with createBufferB := -4 } 0).calls Handle.bufferA ∧
      releaseCount (MatrixMultiply.main { okStatus with createBufferB := -4 } 0).calls
        Handle.bufferA = 0 := by
  decide

/-! ## The exit paths of `main` (practice-6) -/

/-- The exit paths of `VectorAdd.mainFromDevice`: a property holds of the outcome if it
holds on each of the nine paths through the checks of `main`. -/
theorem vectorAdd_fromDevice_paths (st : ApiStatus) (errors : Nat) (log : List Call)
    (P : Outcome → Prop)
    (k1 : st.createContext ≠ CL_SUCCESS →
      P ⟨1, log ++ [.getDeviceInfo, .create .context], none⟩)
    (k2 : st.createContext = CL_SUCCESS →
      st.createCommandQueue ≠ CL_SUCCESS →
      P ⟨1, log ++ [.getDeviceInfo, .create .context, .create .queue, .release .context],
        none⟩)
    (k3 : st.createContext = CL_SUCCESS →
      st.createCommandQueue = CL_SUCCESS →
      st.readKernelFile = false →
      P ⟨1, log ++ [.getDeviceInfo, .create .context, .create .queue, .release .queue,
        .release .context], none⟩)
    (k4 : st.createContext = CL_SUCCESS →
      st.createCommandQueue = CL_SUCCESS →
      st.readKernelFile = true →
      st.createProgramWithSource ≠ CL_SUCCESS →
      P ⟨1, log ++ [.getDeviceInfo, .create .context, .create .queue, .create .program,
        .release .queue, .release .context], none⟩)
    (k5 : st.createContext = CL_SUCCESS →
      st.createCommandQueue = CL_SUCCESS →
      st.readKernelFile = true →
      st.createProgramWithSource = CL_SUCCESS →
      st.buildProgram ≠ CL_SUCCESS →
      P ⟨1, log ++ [.getDeviceInfo, .create .context, .create .queue, .create .program,
        .buildProgram, .getProgramBuildInfo, .getProgramBuildInfo, .release .program,
        .release .queue, .release .context], none⟩)
    (k6 : st.createContext = CL_SUCCESS →
      st.createCommandQueue = CL_SUCCESS →
      st.readKernelFile = true →
      st.createProgramWithSource = CL_SUCCESS →
      st.buildProgram = CL_SUCCESS →
      st.createKernel ≠ CL_SUCCESS →
      P ⟨1, log ++ [.getDeviceInfo, .create .context, .create .queue, .create .program,
        .buildProgram, .create .kernel, .release .program, .release .queue,
        .release .context], none⟩)
    (k7 : st.createContext = CL_SUCCESS →
      st.createCommandQueue = CL_SUCCESS →
      st.readKernelFile = true →
      st.createProgramWithSource = CL_SUCCESS →
      st.buildProgram = CL_SUCCESS →
      st.createKernel = CL_SUCCESS →
      (st.createBufferA ≠ CL_SUCCESS ∨ st.createBufferB ≠ CL_SUCCESS ∨
        st.createBufferC ≠ CL_SUCCESS) →
      P ⟨1, log ++ [.getDeviceInfo, .create .context, .create .queue, .create .program,
        .buildProgram, .create .kernel, .create .bufferA, .create .bufferB, .create .bufferC,
        .release .kernel, .release .program, .release .queue, .release .context], none⟩)
    (k8 : st.createContext = CL_SUCCESS →
      st.createCommandQueue = CL_SUCCESS →
      st.readKernelFile = true →
      st.createProgramWithSource = CL_SUCCESS →
      st.buildProgram = CL_SUCCESS →
      st.createKernel = CL_SUCCESS →
      (st.createBufferA = CL_SUCCESS ∧ st.createBufferB = CL_SUCCESS ∧
        st.createBufferC = CL_SUCCESS) →
      st.enqueueNDRangeKernel ≠ CL_SUCCESS →
      P ⟨1, log ++ [.getDeviceInfo, .create .context, .create .queue, .create .program,
        .buildProgram, .create .kernel, .create .bufferA, .create .bufferB, .create .bufferC,
        .setKernelArg 0, .setKernelArg 1, .setKernelArg 2, .enqueueNDRangeKernel]
        ++ releaseAll, none⟩)
    (k9 : st.createContext = CL_SUCCESS →
      st.createCommandQueue = CL_SUCCESS →
      st.readKernelFile = true →
      st.createProgramWithSource = CL_SUCCESS →
      st.buildProgram = CL_SUCCESS →
      st.createKernel = CL_SUCCESS →
      (st.createBufferA = CL_SUCCESS ∧ st.createBufferB = CL_SUCCESS ∧
        st.createBufferC = CL_SUCCESS) →
      st.enqueueNDRangeKernel = CL_SUCCESS →
      P ⟨0, log ++ [.getDeviceInfo, .create .context, .create .queue, .create .program,
        .buildProgram, .create .kernel, .create .bufferA, .create .bufferB, .create .bufferC,
        .setKernelArg 0, .setKernelArg 1, .setKernelArg 2, .enqueueNDRangeKernel,
        .finish, .enqueueReadBuffer] ++ releaseAll, some (errors == 0)⟩)
    : P (VectorAdd.mainFromDevice st errors log) := by
  unfold VectorAdd.mainFromDevice
  by_cases c1 : st.createContext = CL_SUCCESS
  swap
  · have h := k1 c1
    simpa [c1] using h
  by_cases c2 : st.createCommandQueue = CL_SUCCESS
  swap
  · have h := k2 c1 c2
    simpa [c1, c2] using h
  by_cases c3 : st.readKernelFile = true
  swap
  · have c3f : st.readKernelFile = false := by simpa using c3
    have h := k3 c1 c2 c3f
    simpa [c1, c2, c3f] using h
  by_cases c4 : st.createProgramWithSource = CL_SUCCESS
  swap
  · have h := k4 c1 c2 c3 c4
    simpa [c1, c2, c3, c4] using h
  by_cases c5 : st.buildProgram = CL_SUCCESS
  swap
  · have h := k5 c1 c2 c3 c4 c5
    simpa [c1, c2, c3, c4, c5] using h
  by_cases c6 : st.createKernel = CL_SUCCESS
  swap
  · have h := k6 c1 c2 c3 c4 c5 c6
    simpa [c1, c2, c3, c4, c5, c6] using h
  by_cases c7 : (st.createBufferA = CL_SUCCESS ∧ st.createBufferB = CL_SUCCESS ∧
      st.createBufferC = CL_SUCCESS)
  swap
  · have c7f : st.createBufferA ≠ CL_SUCCESS ∨ st.createBufferB ≠ CL_SUCCESS ∨
        st.createBufferC ≠ CL_SUCCESS := by
      by_contra hcon
      apply c7
      simp only [not_or, ne_eq, not_not] at hcon
      exact hcon
    have h := k7 c1 c2 c3 c4 c5 c6 c7f
    rw [if_neg (by simpa using c1), if_neg (by simpa using c2), if_neg (by simp [c3]),
      if_neg (by simpa using c4), if_neg (by simpa using c5), if_neg (by simpa using c6),
      if_pos c7f]
    simpa using h
  by_cases c8 : st.enqueueNDRangeKernel = CL_SUCCESS
  swap
  · have h := k8 c1 c2 c3 c4 c5 c6 c7 c8
    simpa [c1, c2, c3, c4, c5, c6, c7, c8] using h
  have h := k9 c1 c2 c3 c4 c5 c6 c7 c8
  simpa [c1, c2, c3, c4, c5, c6, c7.1, c7.2.1, c7.2.2, c8] using h

/-- The exit paths of `MatrixMultiply.mainFromDevice`: a property holds of the outcome
if it holds on each of the nine paths through the checks of `main`. -/
theorem matrixMultiply_fromDevice_paths (st : ApiStatus) (errors : Nat) (log : List Call)
    (P : Outcome → Prop)
    (k1 : st.createContext ≠ CL_SUCCESS →
      P ⟨1, log ++ [.getDeviceInfo, .create .context], none⟩)
    (k2 : st.createContext = CL_SUCCESS →
      st.createCommandQueue ≠ CL_SUCCESS →
      P ⟨1, log ++ [.getDeviceInfo, .create .context, .create .queue, .release .context],
        none⟩)
    (k3 : st.createContext = CL_SUCCESS →
      st.createCommandQueue = CL_SUCCESS →
      st.readKernelFile = false →
      P ⟨1, log ++ [.getDeviceInfo, .create .context, .create .queue, .release .queue,
        .release .context], none⟩)
    (k4 : st.createContext = CL_SUCCESS →
      st.createCommandQueue = CL_SUCCESS →
      st.readKernelFile = true →
      st.createProgramWithSource ≠ CL_SUCCESS →
      P ⟨1, log ++ [.getDeviceInfo, .create .context, .create .queue, .create .program,
        .release .queue, .release .context], none⟩)
    (k5 : st.createContext = CL_SUCCESS →
      st.createCommandQueue = CL_SUCCESS →
      st.readKernelFile = true →
      st.createProgramWithSource = CL_SUCCESS →
      st.buildProgram ≠ CL_SUCCESS →
      P ⟨1, log ++ [.getDeviceInfo, .create .context, .create .queue, .create .program,
        .buildProgram, .getProgramBuildInfo, .getProgramBuildInfo, .release .program,
        .release .queue, .release .context], none⟩)
    (k6 : st.createContext = CL_SUCCESS →
      st.createCommandQueue = CL_SUCCESS →
      st.readKernelFile = true →
      st.createProgramWithSource = CL_SUCCESS →
      st.buildProgram = CL_SUCCESS →
      st.createKernel ≠ CL_SUCCESS →
      P ⟨1, log ++ [.getDeviceInfo, .create .context, .create .queue, .create .program,
        .buildProgram, .create .kernel, .release .program, .release .queue,
        .release .context], none⟩)
    (k7 : st.createContext = CL_SUCCESS →
      st.createCommandQueue = CL_SUCCESS →
      st.readKernelFile = true →
      st.createProgramWithSource = CL_SUCCESS →
      st.buildProgram = CL_SUCCESS →
      st.createKernel = CL_SUCCESS →
      (st.createBufferA ≠ CL_SUCCESS ∨ st.createBufferB ≠ CL_SUCCESS ∨
        st.createBufferC ≠ CL_SUCCESS) →
      P ⟨1, log ++ [.getDeviceInfo, .create .context, .create .queue, .create .program,
        .buildProgram, .create .kernel, .create .bufferA, .create .bufferB, .create .bufferC,
        .release .kernel, .release .program, .release .queue, .release .context], none⟩)
    (k8 : st.createContext = CL_SUCCESS →
      st.createCommandQueue = CL_SUCCESS →
      st.readKernelFile = true →
      st.createProgramWithSource = CL_SUCCESS →
      st.buildProgram = CL_SUCCESS →
      st.createKernel = CL_SUCCESS →
      (st.createBufferA = CL_SUCCESS ∧ st.createBufferB = CL_SUCCESS ∧
        st.createBufferC = CL_SUCCESS) →
      st.enqueueNDRangeKernel ≠ CL_SUCCESS →
      P ⟨1, log ++ [.getDeviceInfo, .create .context, .create .queue, .create .program,
        .buildProgram, .create .kernel, .create .bufferA, .create .bufferB, .create .bufferC,
        .setKernelArg 0, .setKernelArg 1, .setKernelArg 2, .setKernelArg 3, .setKernelArg 4,
        .setKernelArg 5, .enqueueNDRangeKernel]
        ++ releaseAll, none⟩)
    (k9 : st.createContext = CL_SUCCESS →
      st.createCommandQueue = CL_SUCCESS →
      st.readKernelFile = true →
      st.createProgramWithSource = CL_SUCCESS →
      st.buildProgram = CL_SUCCESS →
      st.createKernel = CL_SUCCESS →
      (st.createBufferA = CL_SUCCESS ∧ st.createBufferB = CL_SUCCESS ∧
        st.createBufferC = CL_SUCCESS) →
      st.enqueueNDRangeKernel = CL_SUCCESS →
      P ⟨0, log ++ [.getDeviceInfo, .create .context, .create .queue, .create .program,
        .buildProgram, .create .kernel, .create .bufferA, .create .bufferB, .create .bufferC,
        .setKernelArg 0, .setKernelArg 1, .setKernelArg 2, .setKernelArg 3, .setKernelArg 4,
        .setKernelArg 5, .enqueueNDRangeKernel,
        .finish, .enqueueReadBuffer] ++ releaseAll, some (errors == 0)⟩)
    : P (MatrixMultiply.mainFromDevice st errors log) := by
  unfold MatrixMultiply.mainFromDevice
  by_cases c1 : st.createContext = CL_SUCCESS
  swap
  · have h := k1 c1
    simpa [c1] using h
  by_cases c2 : st.createCommandQueue = CL_SUCCESS
  swap
  · have h := k2 c1 c2
    simpa [c1, c2] using h
  by_cases c3 : st.readKernelFile = true
  swap
  · have c3f : st.readKernelFile = false := by simpa using c3
    have h := k3 c1 c2 c3f
    simpa [c1, c2, c3f] using h
  by_cases c4 : st.createProgramWithSource = CL_SUCCESS
  swap
  · have h := k4 c1 c2 c3 c4
    simpa [c1, c2, c3, c4] using h
  by_cases c5 : st.buildProgram = CL_SUCCESS
  swap
  · have h := k5 c1 c2 c3 c4 c5
    simpa [c1, c2, c3, c4, c5] using h
  by_cases c6 : st.createKernel = CL_SUCCESS
  swap
  · have h := k6 c1 c2 c3 c4 c5 c6
    simpa [c1, c2, c3, c4, c5, c6] using h
  by_cases c7 : (st.createBufferA = CL_SUCCESS ∧ st.createBufferB = CL_SUCCESS ∧
      st.createBufferC = CL_SUCCESS)
  swap
  · have c7f : st.createBufferA ≠ CL_SUCCESS ∨ st.createBufferB ≠ CL_SUCCESS ∨
        st.createBufferC ≠ CL_SUCCESS := by
      by_contra hcon
      apply c7
      simp only [not_or, ne_eq, not_not] at hcon
      exact hcon
    have h := k7 c1 c2 c3 c4 c5 c6 c7f
    rw [if_neg (by simpa using c1), if_neg (by simpa using c2), if_neg (by simp [c3]),
      if_neg (by simpa using c4), if_neg (by simpa using c5), if_neg (by simpa using c6),
      if_pos c7f]
    simpa using h
  by_cases c8 : st.enqueueNDRangeKernel = CL_SUCCESS
  swap
  · have h := k8 c1 c2 c3 c4 c5 c6 c7 c8
    simpa [c1, c2, c3, c4, c5, c6, c7, c8] using h
  have h := k9 c1 c2 c3 c4 c5 c6 c7 c8
  simpa [c1, c2, c3, c4, c5, c6, c7.1, c7.2.1, c7.2.2, c8] using h

/-- The exit paths of `VectorAdd.main` up to the end of the device discovery. -/
theorem vectorAdd_main_paths (st : ApiStatus) (errors : Nat) (P : Outcome → Prop)
    (m1 : st.hostAlloc = false → P ⟨1, [], none⟩)
    (m2 : st.hostAlloc = true → st.getPlatformIDs ≠ CL_SUCCESS →
      P ⟨1, [.getPlatformIDs], none⟩)
    (m3 : st.hostAlloc = true → st.getPlatformIDs = CL_SUCCESS →
      st.getDeviceIDsGpu ≠ CL_SUCCESS → st.getDeviceIDsCpu ≠ CL_SUCCESS →
      P ⟨1, [.getPlatformIDs, .getPlatformInfo, .getDeviceIDs .gpu, .getDeviceIDs .cpu], none⟩)
    (m4 : st.hostAlloc = true → st.getPlatformIDs = CL_SUCCESS →
      st.getDeviceIDsGpu ≠ CL_SUCCESS → st.getDeviceIDsCpu = CL_SUCCESS →
      P (VectorAdd.mainFromDevice st errors
        [.getPlatformIDs, .getPlatformInfo, .getDeviceIDs .gpu, .getDeviceIDs .cpu]))
    (m5 : st.hostAlloc = true → st.getPlatformIDs = CL_SUCCESS →
      st.getDeviceIDsGpu = CL_SUCCESS →
      P (VectorAdd.mainFromDevice st errors
        [.getPlatformIDs, .getPlatformInfo, .getDeviceIDs .gpu])) :
    P (VectorAdd.main st errors) := by
  unfold VectorAdd.main
  by_cases a1 : st.hostAlloc = true
  swap
  · have a1f : st.hostAlloc = false := by simpa using a1
    have h := m1 a1f
    simpa [a1f] using h
  by_cases a2 : st.getPlatformIDs = CL_SUCCESS
  swap
  · have h := m2 a1 a2
    simpa [a1, a2] using h
  by_cases a3 : st.getDeviceIDsGpu = CL_SUCCESS
  · have h := m5 a1 a2 a3
    simpa [a1, a2, a3] using h
  by_cases a4 : st.getDeviceIDsCpu = CL_SUCCESS
  · have h := m4 a1 a2 a3 a4
    simpa [a1, a2, a3, a4] using h
  · have h := m3 a1 a2 a3 a4
    simpa [a1, a2, a3, a4] using h

/-- The exit paths of `MatrixMultiply.main` up to the end of the device discovery. -/
theorem matrixMultiply_main_paths (st : ApiStatus) (errors : Nat) (P : Outcome → Prop)
    (m1 : st.hostAlloc = false → P ⟨1, [], none⟩)
    (m2 : st.hostAlloc = true → st.getPlatformIDs ≠ CL_SUCCESS →
      P ⟨1, [.getPlatformIDs], none⟩)
    (m3 : st.hostAlloc = true → st.getPlatformIDs = CL_SUCCESS →
      st.getDeviceIDsGpu ≠ CL_SUCCESS → st.getDeviceIDsCpu ≠ CL_SUCCESS →
      P ⟨1, [.getPlatformIDs, .getPlatformInfo, .getDeviceIDs .gpu, .getDeviceIDs .cpu], none⟩)
    (m4 : st.hostAlloc = true → st.getPlatformIDs = CL_SUCCESS →
      st.getDeviceIDsGpu ≠ CL_SUCCESS → st.getDeviceIDsCpu = CL_SUCCESS →
      P (MatrixMultiply.mainFromDevice st errors
        [.getPlatformIDs, .getPlatformInfo, .getDeviceIDs .gpu, .getDeviceIDs .cpu]))
    (m5 : st.hostAlloc = true → st.getPlatformIDs = CL_SUCCESS →
      st.getDeviceIDsGpu = CL_SUCCESS →
      P (MatrixMultiply.mainFromDevice st errors
        [.getPlatformIDs, .getPlatformInfo, .getDeviceIDs .gpu])) :
    P (MatrixMultiply.main st errors) := by
  unfold MatrixMultiply.main
  by_cases a1 : st.hostAlloc = true
  swap
  · have a1f : st.hostAlloc = false := by simpa using a1
    have h := m1 a1f
    simpa [a1f] using h
  by_cases a2 : st.getPlatformIDs = CL_SUCCESS
  swap
  · have h := m2 a1 a2
    simpa [a1, a2] using h
  by_cases a3 : st.getDeviceIDsGpu = CL_SUCCESS
  · have h := m5 a1 a2 a3
    simpa [a1, a2, a3] using h
  by_cases a4 : st.getDeviceIDsCpu = CL_SUCCESS
  · have h := m4 a1 a2 a3 a4
    simpa [a1, a2, a3, a4] using h
  · have h := m3 a1 a2 a3 a4
    simpa [a1, a2, a3, a4] using h

/-! ## Order of the teardown (practice-6) -/

theorem not_partial_all_fail (st : ApiStatus) (h : ¬ PartialBuffers st)
    (hf : st.createBufferA ≠ CL_SUCCESS ∨ st.createBufferB ≠ CL_SUCCESS ∨
      st.createBufferC ≠ CL_SUCCESS) :
    st.createBufferA ≠ CL_SUCCESS ∧ st.createBufferB ≠ CL_SUCCESS ∧
      st.createBufferC ≠ CL_SUCCESS := by
  unfold PartialBuffers at h
  exact ⟨fun e => h ⟨Or.inl e, hf⟩, fun e => h ⟨Or.inr (Or.inl e), hf⟩,
    fun e => h ⟨Or.inr (Or.inr e), hf⟩⟩

theorem vectorAdd_releases (st : ApiStatus) (errors : Nat) :
    releases (VectorAdd.main st errors).calls <:+ teardownOrder := by
  apply vectorAdd_main_paths st errors (fun o => releases o.calls <:+ teardownOrder)
  · intros; decide
  · intros; decide
  · intros; decide
  · intros
    apply vectorAdd_fromDevice_paths st errors _ (fun o => releases o.calls <:+ teardownOrder)
    all_goals (intros; dsimp only; decide)
  · intros
    apply vectorAdd_fromDevice_paths st errors _ (fun o => releases o.calls <:+ teardownOrder)
    all_goals (intros; dsimp only; decide)

theorem vectorAdd_groupReverse (st : ApiStatus) (errors : Nat) (h : ¬ PartialBuffers st) :
    groupReverse st (VectorAdd.main st errors).calls = true := by
  apply vectorAdd_main_paths st errors (fun o => groupReverse st o.calls = true)
  · intros; simp [groupReverse, releaseOrderFrom]
  · intros; simp [groupReverse, releaseOrderFrom]
  · intros; simp [groupReverse, releaseOrderFrom]
  · intros
    apply vectorAdd_fromDevice_paths st errors _ (fun o => groupReverse st o.calls = true)
    case k7 =>
      intro _ _ _ _ _ _ hf
      have := not_partial_all_fail st h hf
      simp_all [groupReverse, releaseOrderFrom, ApiStatus.createStatus, groupRank]
    all_goals intros
    all_goals simp_all [groupReverse, releaseOrderFrom, ApiStatus.createStatus, groupRank,
      releaseAll]
  · intros
    apply vectorAdd_fromDevice_paths st errors _ (fun o => groupReverse st o.calls = true)
    case k7 =>
      intro _ _ _ _ _ _ hf
      have := not_partial_all_fail st h hf
      simp_all [groupReverse, releaseOrderFrom, ApiStatus.createStatus, groupRank]
    all_goals intros
    all_goals simp_all [groupReverse, releaseOrderFrom, ApiStatus.createStatus, groupRank,
      releaseAll]

theorem matrixMultiply_releases (st : ApiStatus) (errors : Nat) :
    releases (MatrixMultiply.main st errors).calls <:+ teardownOrder := by
  apply matrixMultiply_main_paths st errors (fun o => releases o.calls <:+ teardownOrder)
  · intros; decide
  · intros; decide
  · intros; decide
  · intros
    apply matrixMultiply_fromDevice_paths st errors _ (fun o => releases o.calls <:+ teardownOrder)
    all_goals (intros; dsimp only; decide)
  · intros
    apply matrixMultiply_fromDevice_paths st errors _ (fun o => releases o.calls <:+ teardownOrder)
    all_goals (intros; dsimp only; decide)

theorem matrixMultiply_groupReverse (st : ApiStatus) (errors : Nat) (h : ¬ PartialBuffers st) :
    groupReverse st (MatrixMultiply.main st errors).calls = true := by
  apply matrixMultiply_main_paths st errors (fun o => groupReverse st o.calls = true)
  · intros; simp [groupReverse, releaseOrderFrom]
  · intros; simp [groupReverse, releaseOrderFrom]
  · intros; simp [groupReverse, releaseOrderFrom]
  · intros
    apply matrixMultiply_fromDevice_paths st errors _ (fun o => groupReverse st o.calls = true)
    case k7 =>
      intro _ _ _ _ _ _ hf
      have := not_partial_all_fail st h hf
      simp_all [groupReverse, releaseOrderFrom, ApiStatus.createStatus, groupRank]
    all_goals intros
    all_goals simp_all [groupReverse, releaseOrderFrom, ApiStatus.createStatus, groupRank,
      releaseAll]
  · intros
    apply matrixMultiply_fromDevice_paths st errors _ (fun o => groupReverse st o.calls = true)
    case k7 =>
      intro _ _ _ _ _ _ hf
      have := not_partial_all_fail st h hf
      simp_all [groupReverse, releaseOrderFrom, ApiStatus.createStatus, groupRank]
    all_goals intros
    all_goals simp_all [groupReverse, releaseOrderFrom, ApiStatus.createStatus, groupRank,
      releaseAll]

/-- C11, as stated, fails in both programs: on the successful run the teardown releases
`bufferA` first, while `bufferB` and `bufferC`, acquired after it, are still unreleased. -/
theorem teardown_not_strict_reverse :
    strictReverse okStatus (VectorAdd.main okStatus 0).calls = false ∧
      strictReverse okStatus (MatrixMultiply.main okStatus 0).calls = false ∧
      releases (VectorAdd.main okStatus 0).calls =
        [.bufferA, .bufferB, .bufferC, .kernel, .program, .queue, .context] ∧
      releases (MatrixMultiply.main okStatus 0).calls =
        [.bufferA, .bufferB, .bufferC, .kernel, .program, .queue, .context] := by
  decide

/-- C11, amended: in both programs, on every exit path the handles that are released
are released in the order bufferA, bufferB, bufferC, kernel, program, queue, context
(a tail of that sequence); and on every exit path except the one where only some of
the three buffers were created, no handle is released while a handle acquired after it
is still unreleased, the three buffers counting as one group that is released in the
order of its acquisition. -/
theorem teardown_order (st : ApiStatus) (errors : Nat) :
    releases (VectorAdd.main st errors).calls <:+ teardownOrder ∧
      releases (MatrixMultiply.main st errors).calls <:+ teardownOrder ∧
      (¬ PartialBuffers st →
        groupReverse st (VectorAdd.main st errors).calls = true ∧
          groupReverse st (MatrixMultiply.main st errors).calls = true) :=
  ⟨vectorAdd_releases st errors, matrixMultiply_releases st errors,
    fun h => ⟨vectorAdd_groupReverse st errors h, matrixMultiply_groupReverse st errors h⟩⟩

/-- Witness of the amended C11: the run in which the dispatch fails. -/
theorem teardown_order_witness :
    groupReverse { okStatus with enqueueNDRangeKernel := -5 }
        (VectorAdd.main { okStatus with enqueueNDRangeKernel := -5 } 0).calls = true ∧
      groupReverse { okStatus with enqueueNDRangeKernel := -5 }
        (MatrixMultiply.main { okStatus with enqueueNDRangeKernel := -5 } 0).calls = true :=
  (teardown_order { okStatus with enqueueNDRangeKernel := -5 } 0).2.2
    (by unfold PartialBuffers; decide)

/-! ## Device discovery (practice-6) -/

theorem discoveryOutcome_gpu (st : ApiStatus) (o : Outcome)
    (hg : st.getDeviceIDsGpu = CL_SUCCESS)
    (t3 : o.calls.take 3 = [.getPlatformIDs, .getPlatformInfo, .getDeviceIDs .gpu])
    (cg : o.calls.count (.getDeviceIDs .gpu) = 1) (cc : o.calls.count (.getDeviceIDs .cpu) = 0)
    (hi : Call.getDeviceInfo ∈ o.calls)
    (hx : DeviceStepsSucceed st → o.exitCode = 0) : DiscoveryOutcome st o := by
  refine ⟨t3, cg, ?_, ?_, ?_, ?_⟩
  · rw [cc, if_neg (not_not.mpr hg)]
  · exact ⟨fun _ => Or.inl hg, fun _ => hi⟩
  · constructor
    · intro e
      rw [e] at hi
      exact absurd hi (by decide)
    · intro h
      exact absurd hg h.1
  · intro hd
    rw [hx hd]
    constructor
    · intro e
      exact absurd e (by decide)
    · intro h
      exact absurd hg h.1

theorem discoveryOutcome_cpu (st : ApiStatus) (o : Outcome)
    (hg : st.getDeviceIDsGpu ≠ CL_SUCCESS) (hc : st.getDeviceIDsCpu = CL_SUCCESS)
    (t3 : o.calls.take 3 = [.getPlatformIDs, .getPlatformInfo, .getDeviceIDs .gpu])
    (cg : o.calls.count (.getDeviceIDs .gpu) = 1) (cc : o.calls.count (.getDeviceIDs .cpu) = 1)
    (hi : Call.getDeviceInfo ∈ o.calls)
    (hx : DeviceStepsSucceed st → o.exitCode = 0) : DiscoveryOutcome st o := by
  refine ⟨t3, cg, ?_, ?_, ?_, ?_⟩
  · rw [cc, if_pos hg]
  · exact ⟨fun _ => Or.inr hc, fun _ => hi⟩
  · constructor
    · intro e
      rw [e] at hi
      exact absurd hi (by decide)
    · intro h
      exact absurd hc h.2
  · intro hd
    rw [hx hd]
    constructor
    · intro e
      exact absurd e (by decide)
    · intro h
      exact absurd hc h.2

theorem discoveryOutcome_none (st : ApiStatus)
    (hg : st.getDeviceIDsGpu ≠ CL_SUCCESS) (hc : st.getDeviceIDsCpu ≠ CL_SUCCESS) :
    DiscoveryOutcome st
      ⟨1, [.getPlatformIDs, .getPlatformInfo, .getDeviceIDs .gpu, .getDeviceIDs .cpu], none⟩ := by
  refine ⟨by decide, by decide, ?_, ?_, ?_, ?_⟩
  · rw [if_pos hg]
    decide
  · constructor
    · intro h
      exact absurd h (by decide)
    · rintro (h | h)
      · exact absurd h hg
      · exact absurd h hc
  · exact ⟨fun _ => ⟨hg, hc⟩, fun _ => rfl⟩
  · intro _
    exact ⟨fun _ => ⟨hg, hc⟩, fun _ => rfl⟩

theorem vectorAdd_discovery (st : ApiStatus) (errors : Nat) (h1 : st.hostAlloc = true)
    (h2 : st.getPlatformIDs = CL_SUCCESS) :
    DiscoveryOutcome st (VectorAdd.main st errors) := by
  apply vectorAdd_main_paths st errors (DiscoveryOutcome st)
  · intro h
    rw [h1] at h
    exact absurd h (by decide)
  · intro _ h
    exact absurd h2 h
  · intro _ _ hg hc
    exact discoveryOutcome_none st hg hc
  · intro _ _ hg hc
    apply vectorAdd_fromDevice_paths st errors _ (DiscoveryOutcome st)
    all_goals intros
    all_goals refine discoveryOutcome_cpu st _ hg hc ?_ ?_ ?_ ?_ ?_
    all_goals first
      | (dsimp only; decide)
      | (intro _; rfl)
      | (intro hd; exfalso; unfold DeviceStepsSucceed at hd; simp_all)
  · intro _ _ hg
    apply vectorAdd_fromDevice_paths st errors _ (DiscoveryOutcome st)
    all_goals intros
    all_goals refine discoveryOutcome_gpu st _ hg ?_ ?_ ?_ ?_ ?_
    all_goals first
      | (dsimp only; decide)
      | (intro _; rfl)
      | (intro hd; exfalso; unfold DeviceStepsSucceed at hd; simp_all)

theorem matrixMultiply_discovery (st : ApiStatus) (errors : Nat) (h1 : st.hostAlloc = true)
    (h2 : st.getPlatformIDs = CL_SUCCESS) :
    DiscoveryOutcome st (MatrixMultiply.main st errors) := by
  apply matrixMultiply_main_paths st errors (DiscoveryOutcome st)
  · intro h
    rw [h1] at h
    exact absurd h (by decide)
  · intro _ h
    exact absurd h2 h
  · intro _ _ hg hc
    exact discoveryOutcome_none st hg hc
  · intro _ _ hg hc
    apply matrixMultiply_fromDevice_paths st errors _ (DiscoveryOutcome st)
    all_goals intros
    all_goals refine discoveryOutcome_cpu st _ hg hc ?_ ?_ ?_ ?_ ?_
    all_goals first
      | (dsimp only; decide)
      | (intro _; rfl)
      | (intro hd; exfalso; unfold DeviceStepsSucceed at hd; simp_all)
  · intro _ _ hg
    apply matrixMultiply_fromDevice_paths st errors _ (DiscoveryOutcome st)
    all_goals intros
    all_goals refine discoveryOutcome_gpu st _ hg ?_ ?_ ?_ ?_ ?_
    all_goals first
      | (dsimp only; decide)
      | (intro _; rfl)
      | (intro hd; exfalso; unfold DeviceStepsSucceed at hd; simp_all)

/-- C12: device discovery in both programs, as a function of the statuses of the GPU
query and of the CPU query: the GPU query is made first; the CPU query is made only if
the GPU query failed, and then once; the discovery succeeds (the run goes on) iff one
of the two queries succeeds, and `main` exits with status `1` at the discovery iff both
fail (with every later step succeeding, the exit code is `1` iff both fail). -/
theorem device_discovery (st : ApiStatus) (errors : Nat) (h1 : st.hostAlloc = true)
    (h2 : st.getPlatformIDs = CL_SUCCESS) :
    DiscoveryOutcome st (VectorAdd.main st errors) ∧
      DiscoveryOutcome st (MatrixMultiply.main st errors) :=
  ⟨vectorAdd_discovery st errors h1 h2, matrixMultiply_discovery st errors h1 h2⟩

/-- Witness of C12: the GPU query fails with `CL_DEVICE_NOT_FOUND`, the CPU query
succeeds. -/
theorem device_discovery_witness :
    DiscoveryOutcome { okStatus with getDeviceIDsGpu := -1 }
        (VectorAdd.main { okStatus with getDeviceIDsGpu := -1 } 0) ∧
      DiscoveryOutcome { okStatus with getDeviceIDsGpu := -1 }
        (MatrixMultiply.main { okStatus with getDeviceIDsGpu := -1 } 0) :=
  device_discovery { okStatus with getDeviceIDsGpu := -1 } 0 rfl rfl

/-! ## Counting loops -/

theorem count_foldl (p : Nat → Prop) [DecidablePred p] (n : Nat) :
    (List.range n).foldl (fun errors i => if p i then errors + 1 else errors) 0 =
      ((List.range n).filter (fun i => decide (p i))).length := by
  induction n with
  | zero => rfl
  | succ n ih =>
    rw [List.range_succ, List.foldl_append, List.filter_append, List.length_append, ih]
    by_cases h : p n <;> simp [h]

theorem filter_length_eq_zero (p : Nat → Prop) [DecidablePred p] (n : Nat) :
    ((List.range n).filter (fun i => decide (p i))).length = 0 ↔ ∀ i, i < n → ¬ p i := by
  rw [List.length_eq_zero, List.filter_eq_nil_iff]
  constructor
  · intro h i hi
    have := h i (List.mem_range.mpr hi)
    simpa using this
  · intro h i hi
    simpa using h i (List.mem_range.mp hi)

theorem verify_foldl (C_gpu C_cpu : List ℚ) (n : Nat) :
    ((List.range n).foldl (verifyBody C_gpu C_cpu) (0, 0)).1 =
      (List.range n).foldl (fun errors i =>
        if |C_gpu.getD i 0 - C_cpu.getD i 0| > TOLERANCE then errors + 1 else errors) 0 := by
  induction n with
  | zero => rfl
  | succ n ih =>
    rw [List.range_succ, List.foldl_append, List.foldl_append]
    simp only [List.foldl_cons, List.foldl_nil]
    rw [← ih]
    rfl

/-- C13: with exact arithmetic, `verify_results` returns the number of indices `i` in
`[0, n*k)` with `|C_gpu[i] - C_cpu[i]| > 1e-3`; hence it returns `0` (the run is
reported PASSED) if and only if `|C_gpu[i] - C_cpu[i]| <= 1e-3` for every index, a
difference of exactly `1e-3` being accepted. -/
theorem verify_results_spec (C_gpu C_cpu : List ℚ) (n k : Nat) :
    verify_results C_gpu C_cpu n k =
        ((List.range (n * k)).filter
          (fun i => decide (|C_gpu.getD i 0 - C_cpu.getD i 0| > 1 / 1000))).length ∧
      (verify_results C_gpu C_cpu n k = 0 ↔
        ∀ i, i < n * k → |C_gpu.getD i 0 - C_cpu.getD i 0| ≤ 1 / 1000) ∧
      ((MatrixMultiply.main okStatus (verify_results C_gpu C_cpu n k)).passed = some true ↔
        ∀ i, i < n * k → |C_gpu.getD i 0 - C_cpu.getD i 0| ≤ 1 / 1000) ∧
      verify_results [1 / 1000] [0] 1 1 = 0 ∧ verify_results [0] [1 / 1000] 1 1 = 0 ∧
      verify_results [2 / 1000] [0] 1 1 = 1 := by
  have e : verify_results C_gpu C_cpu n k =
      ((List.range (n * k)).filter
        (fun i => decide (|C_gpu.getD i 0 - C_cpu.getD i 0| > 1 / 1000))).length := by
    unfold verify_results
    rw [verify_foldl]
    exact count_foldl (fun i => |C_gpu.getD i 0 - C_cpu.getD i 0| > 1 / 1000) (n * k)
  have z : verify_results C_gpu C_cpu n k = 0 ↔
      ∀ i, i < n * k → |C_gpu.getD i 0 - C_cpu.getD i 0| ≤ 1 / 1000 := by
    rw [e, filter_length_eq_zero]
    constructor
    · intro h i hi
      exact not_lt.mp (h i hi)
    · intro h i hi
      exact not_lt.mpr (h i hi)
  refine ⟨e, z, ?_, ?_, ?_, ?_⟩
  · rw [← z]
    have hp : (MatrixMultiply.main okStatus (verify_results C_gpu C_cpu n k)).passed =
        some (verify_results C_gpu C_cpu n k == 0) := rfl
    rw [hp]
    simp
  · norm_num [verify_results, verifyBody, TOLERANCE, List.range, List.range.loop, abs_of_nonneg]
  · norm_num [verify_results, verifyBody, TOLERANCE, List.range, List.range.loop, abs_of_nonneg]
  · norm_num [verify_results, verifyBody, TOLERANCE, List.range, List.range.loop, abs_of_nonneg]
/-! ## Vector addition: reference and verification -/

theorem getD_set_eq {F : Type} (l : List F) (a p : Nat) (v d : F) :
    (l.set a v).getD p d = if a = p ∧ a < l.length then v else l.getD p d := by
  simp only [List.getD_eq_getElem?_getD, List.getElem?_set]
  by_cases h : a = p
  · subst h
    by_cases h2 : a < l.length
    · simp [h2]
    · simp [h2, List.getElem?_eq_none (not_lt.mp h2)]
  · simp [h]

theorem vectorAddReference_foldl {F : Type} [Inhabited F] (fadd : F → F → F)
    (A B C_cpu : List F) (n : Nat) (hn : n ≤ C_cpu.length) :
    (vectorAddReference fadd A B C_cpu n).length = C_cpu.length ∧
      ∀ p, (vectorAddReference fadd A B C_cpu n).getD p default =
        if p < n then fadd (A.getD p default) (B.getD p default)
        else C_cpu.getD p default := by
  unfold vectorAddReference
  induction n with
  | zero => simp
  | succ n ih =>
    obtain ⟨hl, hv⟩ := ih (by omega)
    rw [List.range_succ, List.foldl_append]
    simp only [List.foldl_cons, List.foldl_nil]
    refine ⟨by rw [List.length_set, hl], ?_⟩
    intro p
    rw [getD_set_eq, hv p, hl]
    by_cases h1 : n = p
    · subst h1
      have h2 : n < C_cpu.length := by omega
      simp [h2]
    · by_cases h3 : p < n
      · have h4 : p < n + 1 := by omega
        simp [h1, h3, h4]
      · have h4 : ¬ p < n + 1 := by omega
        simp [h1, h3, h4]

/-- C14: in the vector addition the verification loop sets `errors` to the number of
indices `i` in `[0, n)` with `C[i] != A[i] + B[i]`; the run is reported PASSED if and
only if `C[i] == A[i] + B[i]` for every index, and the host reference loop leaves
`C_cpu[i] == A[i] + B[i]` for every `i` (here `n` is any size, `ARRAY_SIZE` in the
program). -/
theorem vectorAdd_verification {F : Type} [Inhabited F] [DecidableEq F] (fadd : F → F → F)
    (A B C C_cpu : List F) (n : Nat) (hn : C_cpu.length = n) :
    vectorAddErrors fadd A B C n =
        ((List.range n).filter (fun i =>
          decide (C.getD i default ≠ fadd (A.getD i default) (B.getD i default)))).length ∧
      ((VectorAdd.main okStatus (vectorAddErrors fadd A B C n)).passed = some true ↔
        ∀ i, i < n → C.getD i default = fadd (A.getD i default) (B.getD i default)) ∧
      (∀ i, i < n → (vectorAddReference fadd A B C_cpu n).getD i default =
        fadd (A.getD i default) (B.getD i default)) ∧
      (vectorAddReference fadd A B C_cpu n).length = n := by
  have e : vectorAddErrors fadd A B C n =
      ((List.range n).filter (fun i =>
        decide (C.getD i default ≠ fadd (A.getD i default) (B.getD i default)))).length :=
    count_foldl (fun i => C.getD i default ≠ fadd (A.getD i default) (B.getD i default)) n
  obtain ⟨hl, hv⟩ := vectorAddReference_foldl fadd A B C_cpu n (le_of_eq hn.symm)
  refine ⟨e, ?_, ?_, by rw [hl, hn]⟩
  · have hp : (VectorAdd.main okStatus (vectorAddErrors fadd A B C n)).passed =
        some (vectorAddErrors fadd A B C n == 0) := rfl
    rw [hp, e]
    simp only [Option.some.injEq, beq_iff_eq]
    rw [filter_length_eq_zero]
    constructor
    · intro h i hi
      exact not_not.mp (h i hi)
    · intro h i hi
      exact not_not.mpr (h i hi)
  · intro i hi
    rw [hv i, if_pos hi]

/-- Witness of C14 on three integers: the reference loop overwrites `C_cpu`. -/
theorem vectorAdd_verification_witness :
    (vectorAddReference (fun x y : Int => x + y) [0, 1, 2] [0, 2, 4] [9, 9, 9] 3).getD 2
        default = 6 ∧
      (vectorAddReference (fun x y : Int => x + y) [0, 1, 2] [0, 2, 4] [9, 9, 9] 3).length = 3 :=
  ⟨(vectorAdd_verification (fun x y : Int => x + y) [0, 1, 2] [0, 2, 4] [0, 3, 7] [9, 9, 9] 3
      rfl).2.2.1 2 (by decide),
   (vectorAdd_verification (fun x y : Int => x + y) [0, 1, 2] [0, 2, 4] [0, 3, 7] [9, 9, 9] 3
      rfl).2.2.2⟩

/-! ## Matrix multiplication on the host -/

theorem idxC_lt (n k i j : Nat) (hi : i < n) (hj : j < k) : idxC i k j < n * k := by
  unfold idxC
  have h1 : (i + 1) * k ≤ n * k := Nat.mul_le_mul_right k hi
  rw [Nat.add_mul, Nat.one_mul] at h1
  omega

theorem productRow_foldl {R : Type} [Zero R] [Add R] [Mul R] (A B : List R) (m k : Nat)
    (C : List R) (i j' : Nat) (hfit : i * k + j' ≤ C.length) :
    ((List.range j').foldl (fun c j => c.set (idxC i k j) (dotSum A B m k i j)) C).length =
        C.length ∧
      ∀ p, ((List.range j').foldl
          (fun c j => c.set (idxC i k j) (dotSum A B m k i j)) C).getD p 0 =
        if i * k ≤ p ∧ p < i * k + j' then dotSum A B m k i (p - i * k) else C.getD p 0 := by
  induction j' with
  | zero =>
    refine ⟨rfl, fun p => ?_⟩
    have h : ¬ (i * k ≤ p ∧ p < i * k + 0) := by omega
    rw [List.range_zero, List.foldl_nil, if_neg h]
  | succ j' ih =>
    obtain ⟨hl, hv⟩ := ih (by omega)
    rw [List.range_succ, List.foldl_append]
    simp only [List.foldl_cons, List.foldl_nil]
    refine ⟨by rw [List.length_set, hl], fun p => ?_⟩
    rw [getD_set_eq, hv p, hl]
    unfold idxC
    by_cases h1 : i * k + j' = p
    · have h2 : i * k + j' < C.length := by omega
      have h3 : i * k ≤ p ∧ p < i * k + (j' + 1) := by omega
      have h4 : p - i * k = j' := by omega
      simp [h1, h3, h4]
      intro h5
      omega
    · by_cases h3 : i * k ≤ p ∧ p < i * k + j'
      · have h4 : i * k ≤ p ∧ p < i * k + (j' + 1) := by omega
        simp [h1, h3, h4]
      · have h4 : ¬ (i * k ≤ p ∧ p < i * k + (j' + 1)) := by omega
        simp [h1, h3, h4]

theorem productRows_foldl {R : Type} [Zero R] [Add R] [Mul R] (A B C : List R)
    (m k n' : Nat) (hfit : n' * k ≤ C.length) :
    ((List.range n').foldl (productRow A B m k) C).length = C.length ∧
      (∀ i j, i < n' → j < k →
        ((List.range n').foldl (productRow A B m k) C).getD (idxC i k j) 0 =
          dotSum A B m k i j) ∧
      ∀ p, n' * k ≤ p →
        ((List.range n').foldl (productRow A B m k) C).getD p 0 = C.getD p 0 := by
  induction n' with
  | zero =>
    exact ⟨rfl, fun i j hi _ => absurd hi (Nat.not_lt_zero i), fun p _ => rfl⟩
  | succ n' ih =>
    have hs : (n' + 1) * k = n' * k + k := by rw [Nat.add_mul, Nat.one_mul]
    obtain ⟨hl, hcell, hrest⟩ := ih (by omega)
    rw [List.range_succ, List.foldl_append]
    simp only [List.foldl_cons, List.foldl_nil]
    obtain ⟨rl, rv⟩ := productRow_foldl A B m k
      ((List.range n').foldl (productRow A B m k) C) n' k (by rw [hl]; omega)
    unfold productRow at rl rv ⊢
    refine ⟨by rw [rl]; exact hl, ?_, ?_⟩
    · intro i j hi hj
      rw [rv]
      by_cases hin : i = n'
      · subst hin
        have h1 : i * k ≤ idxC i k j ∧ idxC i k j < i * k + k := by
          unfold idxC
          omega
        have h2 : idxC i k j - i * k = j := by
          unfold idxC
          omega
        rw [if_pos h1, h2]
      · have hlt : idxC i k j < n' * k := idxC_lt n' k i j (by omega) hj
        have h1 : ¬ (n' * k ≤ idxC i k j ∧ idxC i k j < n' * k + k) := by omega
        rw [if_neg h1]
        exact hcell i j (by omega) hj
    · intro p hp
      rw [rv]
      have h1 : ¬ (n' * k ≤ p ∧ p < n' * k + k) := by omega
      rw [if_neg h1]
      exact hrest p (by omega)

theorem foldl_add_eq_sum {R : Type} [Semiring R] (f : Nat → R) (m : Nat) :
    (List.range m).foldl (fun sum l => sum + f l) 0 = ∑ l in Finset.range m, f l := by
  induction m with
  | zero => simp
  | succ m ih =>
    rw [List.range_succ, List.foldl_append, Finset.sum_range_succ, ih]
    rfl

/-- Over exact arithmetic the left-to-right sum of `dotSum` is the entry of the matrix
product: the sum over `l < m` of `A[i*m + l] * B[l*k + j]`. -/
theorem dotSum_eq_sum {R : Type} [Semiring R] (A B : List R) (m k i j : Nat) :
    dotSum A B m k i j =
      ∑ l in Finset.range m, A.getD (idxA i m l) 0 * B.getD (idxB l k j) 0 :=
  foldl_add_eq_sum (fun l => A.getD (idxA i m l) 0 * B.getD (idxB l k j) 0) m

theorem foldlM_none_of_mem {α β : Type} (f : β → α → Option β) (x : α)
    (hf : ∀ s, f s x = none) :
    ∀ (l : List α), x ∈ l → ∀ init, l.foldlM f init = none := by
  intro l
  induction l with
  | nil =>
    intro hx
    exact absurd hx (List.not_mem_nil x)
  | cons a l ih =>
    intro hx init
    rw [List.foldlM_cons]
    rcases List.mem_cons.mp hx with rfl | hx
    · rw [hf init]
      rfl
    · cases h : f init a with
      | none => rfl
      | some s => exact ih hx s

theorem foldlM_some_of_forall {α β : Type} (f : β → α → Option β) (g : β → α → β) :
    ∀ (l : List α), (∀ x ∈ l, ∀ s, f s x = some (g s x)) →
      ∀ init, l.foldlM f init = some (l.foldl g init) := by
  intro l
  induction l with
  | nil =>
    intro _ init
    rfl
  | cons a l ih =>
    intro h init
    rw [List.foldlM_cons, h a (List.mem_cons_self a l) init, List.foldl_cons]
    exact ih (fun x hx s => h x (List.mem_cons_of_mem a hx) s) (g init a)

theorem intExpr_fits (x : Nat) (h : (x : Int) ≤ INT_MAX) : intExpr x = some x := by
  unfold intExpr
  rw [if_pos h]

theorem intExpr_overflow (x : Nat) (h : INT_MAX < (x : Int)) : intExpr x = none := by
  unfold intExpr
  rw [if_neg (not_le.mpr h)]

theorem idxInt_fits (a b c : Nat) (h : ((a * b + c : Nat) : Int) ≤ INT_MAX) :
    (intExpr (a * b)).bind (fun p => intExpr (p + c)) = some (a * b + c) := by
  have h1 : ((a * b : Nat) : Int) ≤ INT_MAX := by
    have : ((a * b : Nat) : Int) ≤ ((a * b + c : Nat) : Int) := by
      exact_mod_cast Nat.le_add_right (a * b) c
    exact le_trans this h
  rw [intExpr_fits _ h1]
  exact intExpr_fits _ h

theorem idxInt_overflow (a b c : Nat) (h : INT_MAX < ((a * b + c : Nat) : Int)) :
    (intExpr (a * b)).bind (fun p => intExpr (p + c)) = none := by
  cases hp : intExpr (a * b) with
  | none => rfl
  | some p =>
    unfold intExpr at hp
    split at hp
    · injection hp with hp
      subst hp
      exact intExpr_overflow _ h
    · exact absurd hp (by simp)

theorem idx_fits (n m i l : Nat) (hi : i < n) (hl : l < m)
    (hnm : ((n * m : Nat) : Int) ≤ INT_MAX) : ((i * m + l : Nat) : Int) ≤ INT_MAX := by
  have h := idxC_lt n m i l hi hl
  unfold idxC at h
  have : ((i * m + l : Nat) : Int) ≤ ((n * m : Nat) : Int) := by
    exact_mod_cast le_of_lt h
  exact le_trans this hnm

theorem dotRow_eq_dotSum {R : Type} [Zero R] [Add R] [Mul R] (A B : List R)
    (n m k i j : Nat) (hi : i < n) (hj : j < k)
    (hnm : ((n * m : Nat) : Int) ≤ INT_MAX) (hmk : ((m * k : Nat) : Int) ≤ INT_MAX) :
    dotRow A B m k i j = some (dotSum A B m k i j) := by
  unfold dotRow dotSum
  apply foldlM_some_of_forall
  intro l hl sum
  have hl' : l < m := List.mem_range.mp hl
  unfold idxAInt idxBInt
  rw [idxInt_fits i m l (idx_fits n m i l hi hl' hnm),
    idxInt_fits l k j (idx_fits m k l j hl' hj hmk)]
  rfl

theorem multiplyRow_eq_productRow {R : Type} [Zero R] [Add R] [Mul R] (A B C : List R)
    (n m k i : Nat) (hi : i < n)
    (hnm : ((n * m : Nat) : Int) ≤ INT_MAX) (hmk : ((m * k : Nat) : Int) ≤ INT_MAX)
    (hnk : ((n * k : Nat) : Int) ≤ INT_MAX) :
    multiplyRow A B m k C i = some (productRow A B m k C i) := by
  unfold multiplyRow productRow
  apply foldlM_some_of_forall
  intro j hj c
  have hj' : j < k := List.mem_range.mp hj
  unfold idxCInt
  rw [dotRow_eq_dotSum A B n m k i j hi hj' hnm hmk,
    idxInt_fits i k j (idx_fits n k i j hi hj' hnk)]
  rfl

theorem matrix_multiply_cpu_eq_productRows {R : Type} [Zero R] [Add R] [Mul R]
    (A B C : List R) (n m k : Nat)
    (hnm : ((n * m : Nat) : Int) ≤ INT_MAX) (hmk : ((m * k : Nat) : Int) ≤ INT_MAX)
    (hnk : ((n * k : Nat) : Int) ≤ INT_MAX) :
    matrix_multiply_cpu A B C n m k = some (productRows A B C n m k) := by
  unfold matrix_multiply_cpu productRows
  apply foldlM_some_of_forall
  intro i hi c
  exact multiplyRow_eq_productRow A B c n m k i (List.mem_range.mp hi) hnm hmk hnk

theorem matrix_multiply_cpu_none_of_idxC {R : Type} [Zero R] [Add R] [Mul R]
    (A B C : List R) (n m k i j : Nat) (hi : i < n) (hj : j < k)
    (hov : INT_MAX < ((idxC i k j : Nat) : Int)) :
    matrix_multiply_cpu A B C n m k = none := by
  unfold matrix_multiply_cpu
  apply foldlM_none_of_mem _ i _ _ (List.mem_range.mpr hi)
  intro c
  unfold multiplyRow
  apply foldlM_none_of_mem _ j _ _ (List.mem_range.mpr hj)
  intro c'
  unfold idxCInt
  rw [idxInt_overflow i k j hov]
  cases dotRow A B m k i j <;> rfl

/-- C15, as stated, fails: for the `int` dimensions `n = 2`, `m = 1`, `k = 2^30 + 1`
and arrays of `n*m`, `m*k` and `n*k` elements, the index expression `i * k + j` of
line 67 is `2^31 + 1` at `i = 1`, `j = 2^30`; it overflows `int`, the behaviour is
undefined and no result array is produced. -/
theorem matrix_multiply_cpu_overflows :
    (List.replicate (2 * 1) (0 : Int)).length = 2 * 1 ∧
      (List.replicate (1 * 1073741825) (0 : Int)).length = 1 * 1073741825 ∧
      (List.replicate (2 * 1073741825) (0 : Int)).length = 2 * 1073741825 ∧
      idxC 1 1073741825 1073741824 = 2147483649 ∧
      matrix_multiply_cpu (List.replicate (2 * 1) (0 : Int))
        (List.replicate (1 * 1073741825) (0 : Int))
        (List.replicate (2 * 1073741825) (0 : Int)) 2 1 1073741825 = none :=
  ⟨List.length_replicate _ _, List.length_replicate _ _, List.length_replicate _ _,
    by decide,
    matrix_multiply_cpu_none_of_idxC (List.replicate (2 * 1) (0 : Int))
      (List.replicate (1 * 1073741825) (0 : Int))
      (List.replicate (2 * 1073741825) (0 : Int)) 2 1 1073741825 1 1073741824
      (by decide) (by decide) (by unfold idxC INT_MAX; decide)⟩

/-- C15, amended: for all `int` dimensions `n`, `m`, `k >= 0` such that `n*m`, `m*k`
and `n*k` do not exceed `INT_MAX`, and row-major inputs `A` (`n x m`) and `B`
(`m x k`), `matrix_multiply_cpu` returns and writes, for every `i < n` and `j < k`,
`C[i*k + j]` = the sum over `l = 0 .. m-1`, accumulated left to right from `0`, of
`A[i*m + l] * B[l*k + j]`, and it writes no other element of `C`. -/
theorem matrix_multiply_cpu_spec {R : Type} [Zero R] [Add R] [Mul R] (A B C : List R)
    (n m k : Nat) (hC : n * k ≤ C.length)
    (hnm : ((n * m : Nat) : Int) ≤ INT_MAX) (hmk : ((m * k : Nat) : Int) ≤ INT_MAX)
    (hnk : ((n * k : Nat) : Int) ≤ INT_MAX) :
    ∃ out, matrix_multiply_cpu A B C n m k = some out ∧
      (∀ i j, i < n → j < k →
        out.getD (i * k + j) 0 =
          (List.range m).foldl
            (fun sum l => sum + A.getD (i * m + l) 0 * B.getD (l * k + j) 0) 0) ∧
      (∀ p, n * k ≤ p → out.getD p 0 = C.getD p 0) ∧
      out.length = C.length := by
  obtain ⟨hl, hcell, hrest⟩ := productRows_foldl A B C m k n hC
  exact ⟨productRows A B C n m k, matrix_multiply_cpu_eq_productRows A B C n m k hnm hmk hnk,
    fun i j hi hj => hcell i j hi hj, hrest, hl⟩

/-- Witness of the amended C15 on a `1 x 2` by `2 x 1` product, the array `C` having a
spare cell: the written cell, the spare cell and the length of the result. -/
theorem matrix_multiply_cpu_spec_witness :
    (matrix_multiply_cpu ([1, 2] : List Int) [3, 4] [0, 9] 1 2 1).map
        (fun out => (out.getD 0 0, out.getD 1 0, out.length)) = some (11, 9, 2) := by
  obtain ⟨out, h, hc, hr, hl⟩ := matrix_multiply_cpu_spec ([1, 2] : List Int) [3, 4] [0, 9]
    1 2 1 (by decide) (by decide) (by decide) (by decide)
  have h0 : out.getD 0 0 = 11 := hc 0 0 (by decide) (by decide)
  have h1 : out.getD 1 0 = 9 := hr 1 (by decide)
  have h2 : out.length = 2 := hl
  rw [h, Option.map_some', h0, h1, h2]

/-! ## The two sorts agree; `isSorted`; index bounds -/

theorem sortInv_listSorted (arr0 arr : List Int)
    (h : SortInv arr0 arr.length (arr.length - 1) arr) :
    arr.Sorted (· ≤ ·) := by
  unfold List.Sorted
  rw [List.pairwise_iff_getElem]
  intro i j hi hj hij
  have := h.2.2 i j (by omega) (le_of_lt hij) hj
  rwa [rd_eq_getElem arr i hi, rd_eq_getElem arr j hj] at this

theorem sortInv_unique (arr0 a b : List Int)
    (ha : SortInv arr0 arr0.length (arr0.length - 1) a)
    (hb : SortInv arr0 arr0.length (arr0.length - 1) b) : a = b := by
  have la : a.length = arr0.length := ha.1
  have lb : b.length = arr0.length := hb.1
  have sa : a.Sorted (· ≤ ·) := sortInv_listSorted arr0 a (by rw [la]; exact ha)
  have sb : b.Sorted (· ≤ ·) := sortInv_listSorted arr0 b (by rw [lb]; exact hb)
  exact List.eq_of_perm_of_sorted (ha.2.1.trans hb.2.1.symm) sa sb

/-- C16: for every array, every thread split and every critical-section order,
`selectionSortParallel` and `selectionSortSequential` leave the same final array, even
though the index of the minimum chosen in an iteration may differ: on `{2, 1, 1}` the
sequential search picks index `1` and the parallel one, under the two-thread schedule,
index `2`. -/
theorem selectionSortParallel_eq_sequential (sched : Nat → List (List Nat)) (arr : List Int)
    (hs : ∀ i : Nat, (i : Int) < (arr.length : Int) - 1 → ValidSplit arr.length i (sched i)) :
    selectionSortParallel sched arr arr.length = selectionSortSequential arr arr.length ∧
      (seqMinIndex [2, 1, 1] 3 0 = 1 ∧ parMinIndex [2, 1, 1] 0 (twoThreadSched 3 0) = 2) :=
  ⟨sortInv_unique arr _ _ (par_sortInv sched arr (fun i hi => hs i (by omega)))
      (seq_sortInv arr), by decide⟩

/-- Witness of C16: the array `{2, 1, 1}` under the two-thread schedule. -/
theorem selectionSortParallel_eq_sequential_witness :
    selectionSortParallel (twoThreadSched 3) [2, 1, 1] 3 = selectionSortSequential [2, 1, 1] 3 :=
  (selectionSortParallel_eq_sequential (twoThreadSched 3) [2, 1, 1] (by
    intro i hi
    have hi2 : i = 0 ∨ i = 1 := by
      simp only [List.length_cons, List.length_nil] at hi
      omega
    rcases hi2 with rfl | rfl
    · show List.Perm [2, 1] [1, 2]
      exact List.Perm.swap 1 2 []
    · show List.Perm [2] [2]
      exact List.Perm.refl _)).1

theorem isSortedLoop_spec (arr : List Int) (is : List Nat) :
    ((isSortedLoop arr is).1 = true ↔ ∀ i ∈ is, rd arr i ≤ rd arr (i + 1)) ∧
      (isSortedLoop arr is).2 = arr := by
  induction is with
  | nil => simp [isSortedLoop]
  | cons i is ih =>
    unfold isSortedLoop
    by_cases h : rd arr i > rd arr (i + 1)
    · rw [if_pos h]
      refine ⟨?_, rfl⟩
      constructor
      · intro hf
        exact absurd hf Bool.false_ne_true
      · intro hall
        exact absurd (hall i (List.mem_cons_self i is)) (not_le.mpr h)
    · rw [if_neg h]
      refine ⟨?_, ih.2⟩
      rw [ih.1]
      constructor
      · intro hall j hj
        rcases List.mem_cons.mp hj with rfl | hj
        · exact not_lt.mp h
        · exact hall j hj
      · intro hall j hj
        exact hall j (List.mem_cons_of_mem i hj)

/-- C17: for every array and every size, `isSorted(arr, size)` returns true if and only
if `arr[i] <= arr[i+1]` for every `0 <= i < size - 1`; in particular it returns true
for size `0` and size `1`, and it does not modify the array. -/
theorem isSorted_spec (arr : List Int) (size : Nat) :
    ((isSorted arr size).1 = true ↔
        ∀ i : Nat, (i : Int) < (size : Int) - 1 → rd arr i ≤ rd arr (i + 1)) ∧
      (isSorted arr 0).1 = true ∧ (isSorted arr 1).1 = true ∧ (isSorted arr size).2 = arr := by
  refine ⟨?_, rfl, rfl, (isSortedLoop_spec arr _).2⟩
  unfold isSorted
  rw [(isSortedLoop_spec arr _).1]
  constructor
  · intro h i hi
    exact h i (List.mem_range.mpr (by omega))
  · intro h i hi
    exact h i (by have := List.mem_range.mp hi; omega)

end Parallel
